import Mathlib

/-!
Verification of `src/learning/learning_controller.py` (rl_trader).

The controller orchestrates two external collaborators, a trading
environment (`TradingEnvironment`) and an agent (`dqn.DQN`), both treated
as black boxes by the source.  We embed them as records of operations
returning `Except ε _` (a raised Python exception is an `.error e`), and
embed `train_model` as a pure function that additionally returns the
ordered trace of observable calls (prints included) and the final content
of the caller's dataframe object.
-/

namespace RLTrader

/-- A pandas dataframe, abstracted to an ordered list of named columns with
cell values of an abstract type `D`.  The controller only ever inspects
column names. -/
structure DataFrame (D : Type) where
  cols : List (String × List D)
deriving DecidableEq, Repr

def DataFrame.colNames {D : Type} (df : DataFrame D) : List String :=
  df.cols.map Prod.fst

def DataFrame.hasCol {D : Type} (df : DataFrame D) (c : String) : Bool :=
  df.colNames.contains c

/-- `df.drop(columns=[c])` with pandas' default `inplace=False`: returns a
new frame without column `c`, leaving the receiver untouched; a missing
column raises `KeyError` (modelled as `none`). -/
def DataFrame.dropColumn {D : Type} (df : DataFrame D) (c : String) :
    Option (DataFrame D) :=
  if df.hasCol c then some ⟨df.cols.filter (fun p => p.1 != c)⟩ else none

/-- Replace the values of column `c` (used to state that the dropped
column's values are irrelevant). -/
def DataFrame.setCol {D : Type} (df : DataFrame D) (c : String) (vals : List D) :
    DataFrame D :=
  ⟨df.cols.map (fun p => if p.1 = c then (p.1, vals) else p)⟩

/-- A wall-clock reading, as `datetime.now()` returns it. -/
structure DateTime where
  year : Nat
  month : Nat
  day : Nat
  hour : Nat
  minute : Nat
  second : Nat
deriving DecidableEq, Repr

def pad2 (n : Nat) : String :=
  if n < 10 then "0" ++ toString n else toString n

def pad4 (n : Nat) : String :=
  if n < 10 then "000" ++ toString n
  else if n < 100 then "00" ++ toString n
  else if n < 1000 then "0" ++ toString n
  else toString n

/-- `now.strftime("%Y-%m-%d_%H-%M-%S")`. -/
def DateTime.strftimeTimestamp (t : DateTime) : String :=
  pad4 t.year ++ "-" ++ pad2 t.month ++ "-" ++ pad2 t.day ++ "_" ++
  pad2 t.hour ++ "-" ++ pad2 t.minute ++ "-" ++ pad2 t.second

/-- One observable action of the controller.  An event is recorded when the
corresponding call completes normally (a raising call leaves no event);
events carry the arguments and results the controller saw. -/
inductive Event (D V A R : Type) where
  | print (msg : String)
  | envCtor (df : DataFrame D)
  | getState (s : List V)
  | agentCtor (stateSize actionSize : Nat)
  | reset (s : List V)
  | act (s : List V) (a : A)
  | envStep (a : A) (nextState : List V) (reward : R) (done : Bool)
  | remember (s : List V) (a : A) (r : R) (ns : List V) (done : Bool)
  | replay (batchSize : Nat)
  | save (path : String)
deriving DecidableEq, Repr

/-- The `TradingEnvironment` collaborator: `E` its internal state, states
are vectors `List V`, actions `A`, rewards `R`, raised exceptions `ε`. -/
structure EnvOps (ε D E V A R : Type) where
  new : DataFrame D → Except ε E
  get_state : E → Except ε (List V)
  reset : E → Except ε (E × List V)
  step : E → A → Except ε (E × (List V × R × Bool))

/-- The `dqn.DQN` collaborator: `G` its internal state (weights, epsilon,
memory buffer). `memory_len` is `len(model.memory)`. -/
structure AgentOps (ε V A R G : Type) where
  new : Nat → Nat → Except ε G
  act : G → List V → Except ε (G × A)
  remember : G → List V → A → R → List V → Bool → Except ε G
  memory_len : G → Nat
  replay : G → Nat → Except ε G
  save_model : G → String → Except ε Unit

def NUM_EPISODES : Nat := 10
def MAX_STEPS : Nat := 10
def BATCH_SIZE : Nat := 64

/-- Exceptions escaping `train_model`: either pandas' `KeyError` from the
column drop, or an exception raised inside a collaborator call, carried
unmodified. -/
inductive TrainErr (ε : Type) where
  | keyError (column : String)
  | collab (e : ε)
deriving DecidableEq, Repr

variable {ε D E V A R G : Type}

/-- Mutable state of the simulation loop: the environment object, the
model object, and the local variable `state`. -/
structure SimSt (E V G : Type) where
  env : E
  agent : G
  state : List V
deriving DecidableEq, Repr

/-- One iteration of the inner `for step in range(MAX_STEPS)` loop body:
print, `model.act`, `env.step`, `model.remember`, the replay-threshold
check, and the `state = next_state` assignment.  Returns the events of the
iteration, the updated loop state and the `done` flag (the `break` itself
is in `stepLoop`). -/
def stepIter (envOps : EnvOps ε D E V A R) (agentOps : AgentOps ε V A R G)
    (maxSteps stepIdx : Nat) (st : SimSt E V G) :
    List (Event D V A R) × Except ε (SimSt E V G × Bool) :=
  let ev0 : Event D V A R :=
    Event.print ("\tStep " ++ toString (stepIdx + 1) ++ " of " ++ toString maxSteps)
  match agentOps.act st.agent st.state with
  | .error e => ([ev0], .error e)
  | .ok (g1, action) =>
    match envOps.step st.env action with
    | .error e => ([ev0, Event.act st.state action], .error e)
    | .ok (e1, (next_state, reward, done)) =>
      match agentOps.remember g1 st.state action reward next_state done with
      | .error e =>
          ([ev0, Event.act st.state action,
            Event.envStep action next_state reward done], .error e)
      | .ok g2 =>
        let evs : List (Event D V A R) :=
          [ev0, Event.act st.state action,
           Event.envStep action next_state reward done,
           Event.remember st.state action reward next_state done]
        if BATCH_SIZE < agentOps.memory_len g2 then
          match agentOps.replay g2 BATCH_SIZE with
          | .error e => (evs, .error e)
          | .ok g3 =>
              (evs ++ [Event.replay BATCH_SIZE],
               .ok (⟨e1, g3, next_state⟩, done))
        else
          (evs, .ok (⟨e1, g2, next_state⟩, done))

/-- The inner `for step in range(MAX_STEPS)` loop, with the early `break`
on `done`.  `fuel` is the number of remaining indices of the range,
`stepIdx` the current index. -/
def stepLoop (envOps : EnvOps ε D E V A R) (agentOps : AgentOps ε V A R G)
    (maxSteps : Nat) :
    Nat → Nat → SimSt E V G → List (Event D V A R) × Except ε (SimSt E V G)
  | 0, _, st => ([], .ok st)
  | fuel + 1, stepIdx, st =>
    match stepIter envOps agentOps maxSteps stepIdx st with
    | (evs, .error e) => (evs, .error e)
    | (evs, .ok (st', done)) =>
      if done then (evs, .ok st')
      else
        let rest := stepLoop envOps agentOps maxSteps fuel (stepIdx + 1) st'
        (evs ++ rest.1, rest.2)

/-- The outer `for episode in range(NUM_EPISODES)` loop: per episode a
print, `env.reset()`, then the step loop. -/
def episodeLoop (envOps : EnvOps ε D E V A R) (agentOps : AgentOps ε V A R G)
    (numEpisodes maxSteps : Nat) :
    Nat → Nat → E → G → List (Event D V A R) × Except ε (E × G)
  | 0, _, e, g => ([], .ok (e, g))
  | fuel + 1, epIdx, e, g =>
    let ev0 : Event D V A R :=
      Event.print ("Starting episode " ++ toString (epIdx + 1) ++ " of " ++
        toString numEpisodes)
    match envOps.reset e with
    | .error err => ([ev0], .error err)
    | .ok (e1, s0) =>
      match stepLoop envOps agentOps maxSteps maxSteps 0 ⟨e1, g, s0⟩ with
      | (evs, .error err) => ([ev0, Event.reset s0] ++ evs, .error err)
      | (evs, .ok st) =>
        let rest := episodeLoop envOps agentOps numEpisodes maxSteps fuel
          (epIdx + 1) st.env st.agent
        ([ev0, Event.reset s0] ++ evs ++ rest.1, rest.2)

/-- `train_model(data)`.  Returns the ordered event trace, the post-call
content of the caller's dataframe object (the source's
`data = data.drop(columns=["target"])` rebinds a local name with
`inplace=False`, so the caller's object is never written), and either the
saved path or the escaping exception. -/
def train_model (envOps : EnvOps ε D E V A R) (agentOps : AgentOps ε V A R G)
    (now : DateTime) (data : DataFrame D) :
    List (Event D V A R) × DataFrame D × Except (TrainErr ε) String :=
  match data.dropColumn "target" with
  | none => ([], data, .error (.keyError "target"))
  | some cleaned =>
    let ev1 : Event D V A R := Event.print "setting up RL learning environment..."
    match envOps.new cleaned with
    | .error e => ([ev1], data, .error (.collab e))
    | .ok env0 =>
      match envOps.get_state env0 with
      | .error e => ([ev1, Event.envCtor cleaned], data, .error (.collab e))
      | .ok sample =>
        let state_size := sample.length
        let action_size := 3
        let evs1 : List (Event D V A R) :=
          [ev1, Event.envCtor cleaned, Event.getState sample,
           Event.print "loading DQN model..."]
        match agentOps.new state_size action_size with
        | .error e => (evs1, data, .error (.collab e))
        | .ok model0 =>
          let evs2 := evs1 ++ [Event.agentCtor state_size action_size,
            Event.print "running simulation..."]
          match episodeLoop envOps agentOps NUM_EPISODES MAX_STEPS
              NUM_EPISODES 0 env0 model0 with
          | (evs, .error e) => (evs2 ++ evs, data, .error (.collab e))
          | (evs, .ok (_, model1)) =>
            let timestamp := now.strftimeTimestamp
            let path :=
              "src/learning/trained_models/dqn_model_" ++ timestamp ++ ".h5"
            match agentOps.save_model model1 path with
            | .error e => (evs2 ++ evs, data, .error (.collab e))
            | .ok _ =>
                (evs2 ++ evs ++
                  [Event.save path, Event.print "model trained and saved"],
                 data, .ok path)

/-! ### Event classifiers and counters -/

def isReset : Event D V A R → Bool
  | .reset _ => true
  | _ => false

def isAct : Event D V A R → Bool
  | .act _ _ => true
  | _ => false

def isReplay : Event D V A R → Bool
  | .replay _ => true
  | _ => false

def isSave : Event D V A R → Bool
  | .save _ => true
  | _ => false

def isEnvCtor : Event D V A R → Bool
  | .envCtor _ => true
  | _ => false

/-- Events that the body of the inner step loop can emit. -/
def isStepEvent : Event D V A R → Bool
  | .print _ => true
  | .act _ _ => true
  | .envStep _ _ _ _ => true
  | .remember _ _ _ _ _ => true
  | .replay _ => true
  | _ => false

/-- Events that the episode loop can emit. -/
def isEpisodeEvent (ev : Event D V A R) : Bool :=
  isStepEvent ev || isReset ev

def countResets (t : List (Event D V A R)) : Nat := t.countP isReset
def countActs (t : List (Event D V A R)) : Nat := t.countP isAct
def countReplays (t : List (Event D V A R)) : Nat := t.countP isReplay

/-- Grammar of the event sequence produced by one episode's step loop on a
normal (non-raising) run, starting from current state `s`: iteration blocks
in the source's order — print, `act` on the current state, `env.step` with
that action, unconditional `remember` of exactly that transition, then the
conditional `replay(BATCH_SIZE)` — where the state is advanced to the
returned next state between blocks, and a block whose `done` flag is true
is the last block of the episode. -/
inductive IterChain : List V → List (Event D V A R) → Prop
  | nil (s : List V) : IterChain s []
  | last (msg : String) (s : List V) (a : A) (ns : List V) (r : R)
      (rep : List (Event D V A R))
      (hrep : rep = [] ∨ rep = [Event.replay BATCH_SIZE]) :
      IterChain s ([Event.print msg, Event.act s a,
        Event.envStep a ns r true, Event.remember s a r ns true] ++ rep)
  | cont (msg : String) (s : List V) (a : A) (ns : List V) (r : R)
      (rep rest : List (Event D V A R))
      (hrep : rep = [] ∨ rep = [Event.replay BATCH_SIZE])
      (h : IterChain ns rest) :
      IterChain s ([Event.print msg, Event.act s a,
        Event.envStep a ns r false, Event.remember s a r ns false] ++
        rep ++ rest)

/-! ### Concrete collaborator stubs, used to evaluate the theorems on
closed inputs. -/

/-- A deterministic environment stub: internal state counts steps,
`reset` yields state `[0, 0, 0]`, every `step` yields next state `[7]`,
reward `1` and the given `done` flag. -/
def stubEnv (doneFlag : Bool) : EnvOps String Int Nat Int Nat Int where
  new := fun _ => .ok 0
  get_state := fun _ => .ok [1, 2, 3]
  reset := fun e => .ok (e, [0, 0, 0])
  step := fun e _ => .ok (e + 1, ([7], 1, doneFlag))

/-- An agent stub whose internal state counts `remember` calls and whose
reported memory length is always 0 (never reaches the replay threshold). -/
def stubAgentLow : AgentOps String Int Nat Int Nat where
  new := fun _ _ => .ok 0
  act := fun g _ => .ok (g, 0)
  remember := fun g _ _ _ _ _ => .ok (g + 1)
  memory_len := fun _ => 0
  replay := fun g _ => .ok g
  save_model := fun _ _ => .ok ()

/-- An agent stub whose reported memory length exceeds the threshold from
the first transition on. -/
def stubAgentHigh : AgentOps String Int Nat Int Nat where
  new := fun _ _ => .ok 0
  act := fun g _ => .ok (g, 0)
  remember := fun g _ _ _ _ _ => .ok (g + 1)
  memory_len := fun g => g + 100
  replay := fun g _ => .ok g
  save_model := fun _ _ => .ok ()

/-- An environment stub whose constructor raises. -/
def stubEnvRaise : EnvOps String Int Nat Int Nat Int where
  new := fun _ => .error "boom"
  get_state := fun _ => .ok [1, 2, 3]
  reset := fun e => .ok (e, [0, 0, 0])
  step := fun e _ => .ok (e + 1, ([7], 1, true))

def stubNow : DateTime := ⟨2020, 1, 2, 3, 4, 5⟩

def stubData : DataFrame Int := ⟨[("price", [1, 2]), ("target", [0, 1])]⟩

def stubDataNoTarget : DataFrame Int := ⟨[("price", [1, 2])]⟩

/-! ### Dataframe lemmas -/

theorem dropColumn_of_hasCol {D : Type} (df : DataFrame D) (c : String)
    (h : df.hasCol c = true) :
    df.dropColumn c = some ⟨df.cols.filter (fun p => p.1 != c)⟩ := by
  simp [DataFrame.dropColumn, h]

theorem dropColumn_of_not_hasCol {D : Type} (df : DataFrame D) (c : String)
    (h : df.hasCol c = false) : df.dropColumn c = none := by
  simp [DataFrame.dropColumn, h]

theorem dropColumn_hasCol {D : Type} (df d' : DataFrame D) (c : String)
    (h : df.dropColumn c = some d') : d'.hasCol c = false := by
  unfold DataFrame.dropColumn at h
  split at h
  · cases h
    simp only [DataFrame.hasCol, DataFrame.colNames]
    rw [List.contains_eq_any_beq]
    simp only [List.any_eq_false, List.mem_map, List.mem_filter]
    rintro x ⟨p, ⟨-, hp⟩, rfl⟩
    rw [bne_iff_ne] at hp
    intro hcx
    exact hp (eq_of_beq hcx).symm
  · cases h

theorem setCol_colNames {D : Type} (df : DataFrame D) (c : String)
    (vals : List D) : (df.setCol c vals).colNames = df.colNames := by
  simp only [DataFrame.setCol, DataFrame.colNames, List.map_map]
  congr 1
  funext p
  by_cases h : p.1 = c <;> simp [h]

theorem setCol_hasCol {D : Type} (df : DataFrame D) (c c' : String)
    (vals : List D) : (df.setCol c vals).hasCol c' = df.hasCol c' := by
  simp [DataFrame.hasCol, setCol_colNames]

theorem filter_map_setCol {D : Type} (l : List (String × List D)) (c : String)
    (vals : List D) :
    (l.map (fun p => if p.1 = c then (p.1, vals) else p)).filter
        (fun p => p.1 != c) =
      l.filter (fun p => p.1 != c) := by
  induction l with
  | nil => rfl
  | cons p l ih =>
    by_cases h : p.1 = c
    · simp [h, ih]
    · simp [h, ih]

theorem dropColumn_setCol {D : Type} (df : DataFrame D) (c : String)
    (vals : List D) : (df.setCol c vals).dropColumn c = df.dropColumn c := by
  unfold DataFrame.dropColumn
  rw [setCol_hasCol]
  by_cases h : df.hasCol c = true
  · simp only [h, if_true]
    simp [DataFrame.setCol, filter_map_setCol]
  · simp only [Bool.not_eq_true] at h
    simp [h]

/-! ### Characterization of one step iteration -/

theorem stepIter_ok_spec (envOps : EnvOps ε D E V A R)
    (agentOps : AgentOps ε V A R G) (maxSteps stepIdx : Nat) (st : SimSt E V G)
    (evs : List (Event D V A R)) (st' : SimSt E V G) (d : Bool)
    (h : stepIter envOps agentOps maxSteps stepIdx st = (evs, .ok (st', d))) :
    ∃ g1 a e1 ns r g2,
      agentOps.act st.agent st.state = Except.ok (g1, a) ∧
      envOps.step st.env a = Except.ok (e1, (ns, r, d)) ∧
      agentOps.remember g1 st.state a r ns d = Except.ok g2 ∧
      st'.env = e1 ∧ st'.state = ns ∧
      ((BATCH_SIZE < agentOps.memory_len g2 ∧
        ∃ g3, agentOps.replay g2 BATCH_SIZE = Except.ok g3 ∧ st'.agent = g3 ∧
          evs = [Event.print ("\tStep " ++ toString (stepIdx + 1) ++ " of " ++
              toString maxSteps),
            Event.act st.state a, Event.envStep a ns r d,
            Event.remember st.state a r ns d, Event.replay BATCH_SIZE]) ∨
       (agentOps.memory_len g2 ≤ BATCH_SIZE ∧ st'.agent = g2 ∧
          evs = [Event.print ("\tStep " ++ toString (stepIdx + 1) ++ " of " ++
              toString maxSteps),
            Event.act st.state a, Event.envStep a ns r d,
            Event.remember st.state a r ns d])) := by
  unfold stepIter at h
  cases hact : agentOps.act st.agent st.state with
  | error e => rw [hact] at h; simp at h
  | ok p =>
    obtain ⟨g1, a⟩ := p
    rw [hact] at h
    cases hstep : envOps.step st.env a with
    | error e => simp only [hstep] at h; simp at h
    | ok q =>
      obtain ⟨e1, ns, r, dn⟩ := q
      simp only [hstep] at h
      cases hrem : agentOps.remember g1 st.state a r ns dn with
      | error e => simp only [hrem] at h; simp at h
      | ok g2 =>
        simp only [hrem] at h
        by_cases hmem : BATCH_SIZE < agentOps.memory_len g2
        · rw [if_pos hmem] at h
          cases hrep : agentOps.replay g2 BATCH_SIZE with
          | error e => simp only [hrep] at h; simp at h
          | ok g3 =>
            simp only [hrep] at h
            simp only [Prod.mk.injEq, Except.ok.injEq, List.append_eq] at h
            obtain ⟨hevs, hst, hd⟩ := h
            subst hevs; subst hd
            refine ⟨g1, a, e1, ns, r, g2, rfl, hstep, hrem, ?_, ?_, ?_⟩
            · rw [← hst]
            · rw [← hst]
            · exact Or.inl ⟨hmem, g3, hrep, by rw [← hst], by simp⟩
        · rw [if_neg hmem] at h
          simp only [Prod.mk.injEq, Except.ok.injEq] at h
          obtain ⟨hevs, hst, hd⟩ := h
          subst hevs; subst hd
          refine ⟨g1, a, e1, ns, r, g2, rfl, hstep, hrem, ?_, ?_, ?_⟩
          · rw [← hst]
          · rw [← hst]
          · exact Or.inr ⟨Nat.le_of_not_lt hmem, by rw [← hst], rfl⟩

theorem stepIter_events (envOps : EnvOps ε D E V A R)
    (agentOps : AgentOps ε V A R G) (maxSteps stepIdx : Nat) (st : SimSt E V G)
    (evs : List (Event D V A R)) (res : Except ε (SimSt E V G × Bool))
    (h : stepIter envOps agentOps maxSteps stepIdx st = (evs, res)) :
    ∀ ev ∈ evs, isStepEvent ev = true := by
  unfold stepIter at h
  repeat' split at h
  all_goals (injection h with h1 h2; subst h1; simp [isStepEvent])

theorem stepIter_countActs (envOps : EnvOps ε D E V A R)
    (agentOps : AgentOps ε V A R G) (maxSteps stepIdx : Nat) (st : SimSt E V G)
    (evs : List (Event D V A R)) (res : Except ε (SimSt E V G × Bool))
    (h : stepIter envOps agentOps maxSteps stepIdx st = (evs, res)) :
    countActs evs ≤ 1 := by
  unfold stepIter at h
  repeat' split at h
  all_goals (injection h with h1 h2; subst h1; simp [countActs, isAct])

theorem stepIter_countReplays_zero (envOps : EnvOps ε D E V A R)
    (agentOps : AgentOps ε V A R G)
    (hmem : ∀ g, agentOps.memory_len g ≤ BATCH_SIZE)
    (maxSteps stepIdx : Nat) (st : SimSt E V G)
    (evs : List (Event D V A R)) (res : Except ε (SimSt E V G × Bool))
    (h : stepIter envOps agentOps maxSteps stepIdx st = (evs, res)) :
    countReplays evs = 0 := by
  unfold stepIter at h
  cases hact : agentOps.act st.agent st.state with
  | error e0 =>
    simp only [hact] at h
    injection h with h1 h2
    subst h1
    simp [countReplays, isReplay]
  | ok p =>
    obtain ⟨g1, a⟩ := p
    simp only [hact] at h
    cases hstep : envOps.step st.env a with
    | error e0 =>
      simp only [hstep] at h
      injection h with h1 h2
      subst h1
      simp [countReplays, isReplay]
    | ok q =>
      obtain ⟨e1, ns, r, dn⟩ := q
      simp only [hstep] at h
      cases hrem : agentOps.remember g1 st.state a r ns dn with
      | error e0 =>
        simp only [hrem] at h
        injection h with h1 h2
        subst h1
        simp [countReplays, isReplay]
      | ok g2 =>
        simp only [hrem] at h
        rw [if_neg (Nat.not_lt.mpr (hmem g2))] at h
        injection h with h1 h2
        subst h1
        simp [countReplays, isReplay]

/-! ### Step-loop lemmas -/

theorem stepLoop_events (envOps : EnvOps ε D E V A R)
    (agentOps : AgentOps ε V A R G) (maxSteps : Nat) :
    ∀ (fuel stepIdx : Nat) (st : SimSt E V G) (evs : List (Event D V A R))
      (res : Except ε (SimSt E V G)),
      stepLoop envOps agentOps maxSteps fuel stepIdx st = (evs, res) →
      ∀ ev ∈ evs, isStepEvent ev = true := by
  intro fuel
  induction fuel with
  | zero =>
    intro stepIdx st evs res h
    unfold stepLoop at h
    injection h with h1 h2
    subst h1
    simp
  | succ fuel ih =>
    intro stepIdx st evs res h
    unfold stepLoop at h
    rcases hsi : stepIter envOps agentOps maxSteps stepIdx st with ⟨evs0, res0⟩
    rw [hsi] at h
    cases res0 with
    | error e =>
      injection h with h1 h2
      subst h1
      exact stepIter_events _ _ _ _ _ _ _ hsi
    | ok p =>
      obtain ⟨st1, dn⟩ := p
      cases dn with
      | true =>
        injection h with h1 h2
        subst h1
        exact stepIter_events _ _ _ _ _ _ _ hsi
      | false =>
        injection h with h1 h2
        subst h1
        intro ev hev
        rcases List.mem_append.mp hev with hl | hr
        · exact stepIter_events _ _ _ _ _ _ _ hsi ev hl
        · rcases hres : stepLoop envOps agentOps maxSteps fuel (stepIdx + 1) st1
            with ⟨evs1, res1⟩
          rw [hres] at hr
          exact ih _ _ _ _ hres ev (by simpa using hr)

theorem stepLoop_countActs (envOps : EnvOps ε D E V A R)
    (agentOps : AgentOps ε V A R G) (maxSteps : Nat) :
    ∀ (fuel stepIdx : Nat) (st : SimSt E V G) (evs : List (Event D V A R))
      (res : Except ε (SimSt E V G)),
      stepLoop envOps agentOps maxSteps fuel stepIdx st = (evs, res) →
      countActs evs ≤ fuel := by
  intro fuel
  induction fuel with
  | zero =>
    intro stepIdx st evs res h
    unfold stepLoop at h
    injection h with h1 h2
    subst h1
    simp [countActs]
  | succ fuel ih =>
    intro stepIdx st evs res h
    unfold stepLoop at h
    rcases hsi : stepIter envOps agentOps maxSteps stepIdx st with ⟨evs0, res0⟩
    rw [hsi] at h
    cases res0 with
    | error e =>
      injection h with h1 h2
      subst h1
      exact le_trans (stepIter_countActs _ _ _ _ _ _ _ hsi) (Nat.le_add_left 1 fuel)
    | ok p =>
      obtain ⟨st1, dn⟩ := p
      cases dn with
      | true =>
        injection h with h1 h2
        subst h1
        exact le_trans (stepIter_countActs _ _ _ _ _ _ _ hsi) (Nat.le_add_left 1 fuel)
      | false =>
        injection h with h1 h2
        subst h1
        rcases hres : stepLoop envOps agentOps maxSteps fuel (stepIdx + 1) st1
          with ⟨evs1, res1⟩
        have h0 := stepIter_countActs _ _ _ _ _ _ _ hsi
        have hr := ih _ _ _ _ hres
        simp only [countActs, List.countP_append] at h0 hr ⊢
        omega

theorem stepLoop_countReplays_zero (envOps : EnvOps ε D E V A R)
    (agentOps : AgentOps ε V A R G)
    (hmem : ∀ g, agentOps.memory_len g ≤ BATCH_SIZE) (maxSteps : Nat) :
    ∀ (fuel stepIdx : Nat) (st : SimSt E V G) (evs : List (Event D V A R))
      (res : Except ε (SimSt E V G)),
      stepLoop envOps agentOps maxSteps fuel stepIdx st = (evs, res) →
      countReplays evs = 0 := by
  intro fuel
  induction fuel with
  | zero =>
    intro stepIdx st evs res h
    unfold stepLoop at h
    injection h with h1 h2
    subst h1
    simp [countReplays]
  | succ fuel ih =>
    intro stepIdx st evs res h
    unfold stepLoop at h
    rcases hsi : stepIter envOps agentOps maxSteps stepIdx st with ⟨evs0, res0⟩
    rw [hsi] at h
    cases res0 with
    | error e =>
      injection h with h1 h2
      subst h1
      exact stepIter_countReplays_zero _ _ hmem _ _ _ _ _ hsi
    | ok p =>
      obtain ⟨st1, dn⟩ := p
      cases dn with
      | true =>
        injection h with h1 h2
        subst h1
        exact stepIter_countReplays_zero _ _ hmem _ _ _ _ _ hsi
      | false =>
        injection h with h1 h2
        subst h1
        rcases hres : stepLoop envOps agentOps maxSteps fuel (stepIdx + 1) st1
          with ⟨evs1, res1⟩
        have h0 := stepIter_countReplays_zero _ _ hmem _ _ _ _ _ hsi
        have hr := ih _ _ _ _ hres
        simp only [countReplays, List.countP_append] at h0 hr ⊢
        omega

theorem stepLoop_ok_chain (envOps : EnvOps ε D E V A R)
    (agentOps : AgentOps ε V A R G) (maxSteps : Nat) :
    ∀ (fuel stepIdx : Nat) (st : SimSt E V G) (evs : List (Event D V A R))
      (st' : SimSt E V G),
      stepLoop envOps agentOps maxSteps fuel stepIdx st = (evs, .ok st') →
      IterChain st.state evs := by
  intro fuel
  induction fuel with
  | zero =>
    intro stepIdx st evs st' h
    unfold stepLoop at h
    injection h with h1 h2
    subst h1
    exact IterChain.nil st.state
  | succ fuel ih =>
    intro stepIdx st evs st' h
    unfold stepLoop at h
    rcases hsi : stepIter envOps agentOps maxSteps stepIdx st with ⟨evs0, res0⟩
    rw [hsi] at h
    cases res0 with
    | error e0 =>
      injection h with h1 h2
      cases h2
    | ok p =>
      obtain ⟨st1, dn⟩ := p
      obtain ⟨g1, a, e1, ns, r, g2, -, -, -, -, hstate, hdisj⟩ :=
        stepIter_ok_spec envOps agentOps maxSteps stepIdx st evs0 st1 dn hsi
      cases dn with
      | true =>
        injection h with h1 h2
        subst h1
        rcases hdisj with ⟨-, g3, -, -, hevs⟩ | ⟨-, -, hevs⟩
        · subst hevs
          simpa using IterChain.last _ st.state a ns r
            [Event.replay BATCH_SIZE] (Or.inr rfl)
        · subst hevs
          simpa using IterChain.last _ st.state a ns r [] (Or.inl rfl)
      | false =>
        injection h with h1 h2
        subst h1
        rcases hres : stepLoop envOps agentOps maxSteps fuel (stepIdx + 1) st1
          with ⟨evs1, res1⟩
        rw [hres] at h2
        dsimp only at h2
        subst h2
        have hchain : IterChain ns evs1 := by
          have hc := ih (stepIdx + 1) st1 evs1 st' hres
          rwa [hstate] at hc
        dsimp only
        rcases hdisj with ⟨-, g3, -, -, hevs⟩ | ⟨-, -, hevs⟩
        · subst hevs
          simpa using IterChain.cont _ st.state a ns r
            [Event.replay BATCH_SIZE] evs1 (Or.inr rfl) hchain
        · subst hevs
          simpa using IterChain.cont _ st.state a ns r [] evs1
            (Or.inl rfl) hchain

/-! ### Episode-loop lemmas -/

theorem countResets_of_stepEvents (evs : List (Event D V A R))
    (h : ∀ ev ∈ evs, isStepEvent ev = true) : countResets evs = 0 :=
  List.countP_eq_zero.mpr fun ev hev => by
    have := h ev hev
    cases ev <;> simp_all [isStepEvent, isReset]

theorem not_isSave_of_stepEvent (ev : Event D V A R)
    (h : isStepEvent ev = true) : isSave ev = false := by
  cases ev <;> simp_all [isStepEvent, isSave]

theorem not_isEnvCtor_of_stepEvent (ev : Event D V A R)
    (h : isStepEvent ev = true) : isEnvCtor ev = false := by
  cases ev <;> simp_all [isStepEvent, isEnvCtor]

theorem episodeLoop_events (envOps : EnvOps ε D E V A R)
    (agentOps : AgentOps ε V A R G) (numEpisodes maxSteps : Nat) :
    ∀ (fuel epIdx : Nat) (e : E) (g : G) (evs : List (Event D V A R))
      (res : Except ε (E × G)),
      episodeLoop envOps agentOps numEpisodes maxSteps fuel epIdx e g =
        (evs, res) →
      ∀ ev ∈ evs, isEpisodeEvent ev = true := by
  intro fuel
  induction fuel with
  | zero =>
    intro epIdx e g evs res h
    unfold episodeLoop at h
    injection h with h1 h2
    subst h1
    simp
  | succ fuel ih =>
    intro epIdx e g evs res h
    unfold episodeLoop at h
    cases hreset : envOps.reset e with
    | error err =>
      simp only [hreset] at h
      injection h with h1 h2
      subst h1
      simp [isEpisodeEvent, isStepEvent]
    | ok p =>
      obtain ⟨e1, s0⟩ := p
      simp only [hreset] at h
      rcases hsl : stepLoop envOps agentOps maxSteps maxSteps 0 ⟨e1, g, s0⟩
        with ⟨evs1, res1⟩
      rw [hsl] at h
      cases res1 with
      | error err =>
        injection h with h1 h2
        subst h1
        intro ev hev
        rcases List.mem_append.mp hev with hl | hr
        · simp only [List.mem_cons, List.not_mem_nil, or_false] at hl
          rcases hl with rfl | rfl <;>
            simp [isEpisodeEvent, isStepEvent, isReset]
        · have := stepLoop_events _ _ _ _ _ _ _ _ hsl ev hr
          simp [isEpisodeEvent, this]
      | ok st2 =>
        injection h with h1 h2
        subst h1
        intro ev hev
        rcases hrest : episodeLoop envOps agentOps numEpisodes maxSteps fuel
          (epIdx + 1) st2.env st2.agent with ⟨evs2, res2⟩
        rw [hrest] at hev
        simp only [List.append_assoc, List.mem_append] at hev
        rcases hev with hl | hm | hr
        · simp only [List.mem_cons, List.not_mem_nil, or_false] at hl
          rcases hl with rfl | rfl <;>
            simp [isEpisodeEvent, isStepEvent, isReset]
        · have := stepLoop_events _ _ _ _ _ _ _ _ hsl ev hm
          simp [isEpisodeEvent, this]
        · exact ih _ _ _ _ _ hrest ev (by simpa using hr)

theorem episodeLoop_countReplays_zero (envOps : EnvOps ε D E V A R)
    (agentOps : AgentOps ε V A R G)
    (hmem : ∀ g, agentOps.memory_len g ≤ BATCH_SIZE)
    (numEpisodes maxSteps : Nat) :
    ∀ (fuel epIdx : Nat) (e : E) (g : G) (evs : List (Event D V A R))
      (res : Except ε (E × G)),
      episodeLoop envOps agentOps numEpisodes maxSteps fuel epIdx e g =
        (evs, res) →
      countReplays evs = 0 := by
  intro fuel
  induction fuel with
  | zero =>
    intro epIdx e g evs res h
    unfold episodeLoop at h
    injection h with h1 h2
    subst h1
    simp [countReplays]
  | succ fuel ih =>
    intro epIdx e g evs res h
    unfold episodeLoop at h
    cases hreset : envOps.reset e with
    | error err0 =>
      simp only [hreset] at h
      injection h with h1 h2
      subst h1
      simp [countReplays, isReplay]
    | ok p =>
      obtain ⟨e1, s0⟩ := p
      simp only [hreset] at h
      rcases hsl : stepLoop envOps agentOps maxSteps maxSteps 0 ⟨e1, g, s0⟩
        with ⟨evs1, res1⟩
      rw [hsl] at h
      cases res1 with
      | error err0 =>
        injection h with h1 h2
        subst h1
        have h0 := stepLoop_countReplays_zero _ _ hmem _ _ _ _ _ _ hsl
        simp only [countReplays, List.countP_append, List.countP_cons,
          List.countP_nil] at h0 ⊢
        simp [isReplay, h0]
      | ok st2 =>
        injection h with h1 h2
        subst h1
        rcases hrest : episodeLoop envOps agentOps numEpisodes maxSteps fuel
          (epIdx + 1) st2.env st2.agent with ⟨evs2, res2⟩
        have h0 := stepLoop_countReplays_zero _ _ hmem _ _ _ _ _ _ hsl
        have hr := ih _ _ _ _ _ hrest
        simp only [countReplays, List.countP_append, List.countP_cons,
          List.countP_nil] at h0 hr ⊢
        simp [isReplay, h0, hr]

theorem episodeLoop_ok_shape (envOps : EnvOps ε D E V A R)
    (agentOps : AgentOps ε V A R G) (numEpisodes maxSteps : Nat) :
    ∀ (fuel epIdx : Nat) (e : E) (g : G) (evs : List (Event D V A R))
      (e' : E) (g' : G),
      episodeLoop envOps agentOps numEpisodes maxSteps fuel epIdx e g =
        (evs, .ok (e', g')) →
      ∃ segs : List (List (Event D V A R)),
        evs = segs.flatten ∧ segs.length = fuel ∧
        ∀ seg ∈ segs, ∃ msg s0 body,
          seg = Event.print msg :: Event.reset s0 :: body ∧
          IterChain s0 body ∧ countActs body ≤ maxSteps ∧
          countResets body = 0 := by
  intro fuel
  induction fuel with
  | zero =>
    intro epIdx e g evs e' g' h
    unfold episodeLoop at h
    injection h with h1 h2
    subst h1
    exact ⟨[], rfl, rfl, by simp⟩
  | succ fuel ih =>
    intro epIdx e g evs e' g' h
    unfold episodeLoop at h
    cases hreset : envOps.reset e with
    | error err0 =>
      simp only [hreset] at h
      injection h with h1 h2
      cases h2
    | ok p =>
      obtain ⟨e1, s0⟩ := p
      simp only [hreset] at h
      rcases hsl : stepLoop envOps agentOps maxSteps maxSteps 0 ⟨e1, g, s0⟩
        with ⟨evs1, res1⟩
      rw [hsl] at h
      cases res1 with
      | error err0 =>
        injection h with h1 h2
        cases h2
      | ok st2 =>
        injection h with h1 h2
        subst h1
        rcases hrest : episodeLoop envOps agentOps numEpisodes maxSteps fuel
          (epIdx + 1) st2.env st2.agent with ⟨evs2, res2⟩
        rw [hrest] at h2
        dsimp only at h2
        subst h2
        obtain ⟨segs, hjoin, hlen, hsegs⟩ := ih _ _ _ _ _ _ hrest
        have hchain : IterChain s0 evs1 := by
          have hc := stepLoop_ok_chain envOps agentOps maxSteps maxSteps 0
            ⟨e1, g, s0⟩ evs1 st2 hsl
          exact hc
        refine ⟨(Event.print ("Starting episode " ++ toString (epIdx + 1) ++
          " of " ++ toString numEpisodes) :: Event.reset s0 :: evs1) :: segs,
          ?_, ?_, ?_⟩
        · simp [hjoin]
        · simp [hlen]
        · intro seg hseg
          rcases List.mem_cons.mp hseg with rfl | hseg'
          · refine ⟨_, s0, evs1, rfl, hchain, ?_, ?_⟩
            · exact stepLoop_countActs _ _ _ _ _ _ _ _ hsl
            · exact countResets_of_stepEvents _
                (stepLoop_events _ _ _ _ _ _ _ _ hsl)
          · exact hsegs seg hseg'

/-! ### train_model lemmas -/

theorem train_model_ok_spec (envOps : EnvOps ε D E V A R)
    (agentOps : AgentOps ε V A R G) (now : DateTime) (data : DataFrame D)
    (trace : List (Event D V A R)) (df : DataFrame D) (path : String)
    (h : train_model envOps agentOps now data = (trace, df, .ok path)) :
    df = data ∧
    path = "src/learning/trained_models/dqn_model_" ++
      now.strftimeTimestamp ++ ".h5" ∧
    ∃ cleaned sample env0 g0 envF gF epEvs,
      data.dropColumn "target" = some cleaned ∧
      envOps.new cleaned = Except.ok env0 ∧
      envOps.get_state env0 = Except.ok sample ∧
      agentOps.new sample.length 3 = Except.ok g0 ∧
      episodeLoop envOps agentOps NUM_EPISODES MAX_STEPS NUM_EPISODES 0
        env0 g0 = (epEvs, Except.ok (envF, gF)) ∧
      agentOps.save_model gF path = Except.ok () ∧
      trace = [Event.print "setting up RL learning environment...",
        Event.envCtor cleaned, Event.getState sample,
        Event.print "loading DQN model...",
        Event.agentCtor sample.length 3,
        Event.print "running simulation..."] ++ epEvs ++
        [Event.save path, Event.print "model trained and saved"] := by
  unfold train_model at h
  cases hdrop : data.dropColumn "target" with
  | none =>
    simp only [hdrop] at h
    injection h with h1 h2
    injection h2 with h3 h4
    cases h4
  | some cleaned =>
    simp only [hdrop] at h
    cases hnew : envOps.new cleaned with
    | error e =>
      simp only [hnew] at h
      injection h with h1 h2
      injection h2 with h3 h4
      cases h4
    | ok env0 =>
      simp only [hnew] at h
      cases hgs : envOps.get_state env0 with
      | error e =>
        simp only [hgs] at h
        injection h with h1 h2
        injection h2 with h3 h4
        cases h4
      | ok sample =>
        simp only [hgs] at h
        cases hag : agentOps.new sample.length 3 with
        | error e =>
          simp only [hag] at h
          injection h with h1 h2
          injection h2 with h3 h4
          cases h4
        | ok g0 =>
          simp only [hag] at h
          rcases hep : episodeLoop envOps agentOps NUM_EPISODES MAX_STEPS
            NUM_EPISODES 0 env0 g0 with ⟨epEvs, epRes⟩
          rw [hep] at h
          cases epRes with
          | error e =>
            injection h with h1 h2
            injection h2 with h3 h4
            cases h4
          | ok pr =>
            obtain ⟨envF, gF⟩ := pr
            cases hsave : agentOps.save_model gF
                ("src/learning/trained_models/dqn_model_" ++
                  now.strftimeTimestamp ++ ".h5") with
            | error e =>
              simp only [hsave] at h
              injection h with h1 h2
              injection h2 with h3 h4
              cases h4
            | ok u =>
              cases u
              simp only [hsave] at h
              injection h with h1 h2
              injection h2 with h3 h4
              injection h4 with h5
              subst h5
              refine ⟨h3.symm, rfl, cleaned, sample, env0, g0, envF, gF,
                epEvs, rfl, hnew, hgs, hag, hep, hsave, ?_⟩
              rw [← h1]
              simp

/-- Claim C9: `train_model` never mutates the caller's input dataframe.
The label-column removal (`data.drop(columns=["target"])`, pandas default
`inplace=False`) rebinds a local name only, so after `train_model` returns
or raises, the caller's dataframe object — returned by the embedding as the
middle component — still holds all its original columns and values, the
`target` column included. -/
theorem train_model_preserves_caller_dataframe (envOps : EnvOps ε D E V A R)
    (agentOps : AgentOps ε V A R G) (now : DateTime) (data : DataFrame D) :
    (train_model envOps agentOps now data).2.1 = data := by
  rcases ht : train_model envOps agentOps now data with ⟨trace, df, res⟩
  dsimp only
  unfold train_model at ht
  cases hdrop : data.dropColumn "target" with
  | none =>
    simp only [hdrop] at ht
    injection ht with h1 h2
    injection h2 with h3 h4
    exact h3.symm
  | some cleaned =>
    simp only [hdrop] at ht
    cases hnew : envOps.new cleaned with
    | error e =>
      simp only [hnew] at ht
      injection ht with h1 h2
      injection h2 with h3 h4
      exact h3.symm
    | ok env0 =>
      simp only [hnew] at ht
      cases hgs : envOps.get_state env0 with
      | error e =>
        simp only [hgs] at ht
        injection ht with h1 h2
        injection h2 with h3 h4
        exact h3.symm
      | ok sample =>
        simp only [hgs] at ht
        cases hag : agentOps.new sample.length 3 with
        | error e =>
          simp only [hag] at ht
          injection ht with h1 h2
          injection h2 with h3 h4
          exact h3.symm
        | ok g0 =>
          simp only [hag] at ht
          rcases hep : episodeLoop envOps agentOps NUM_EPISODES MAX_STEPS
            NUM_EPISODES 0 env0 g0 with ⟨epEvs, epRes⟩
          rw [hep] at ht
          cases epRes with
          | error e =>
            injection ht with h1 h2
            injection h2 with h3 h4
            exact h3.symm
          | ok pr =>
            obtain ⟨envF, gF⟩ := pr
            cases hsave : agentOps.save_model gF
                ("src/learning/trained_models/dqn_model_" ++
                  now.strftimeTimestamp ++ ".h5") with
            | error e =>
              simp only [hsave] at ht
              injection ht with h1 h2
              injection h2 with h3 h4
              exact h3.symm
            | ok u =>
              cases u
              simp only [hsave] at ht
              injection ht with h1 h2
              injection h2 with h3 h4
              exact h3.symm

theorem train_model_envCtor_only_cleaned (envOps : EnvOps ε D E V A R)
    (agentOps : AgentOps ε V A R G) (now : DateTime) (data : DataFrame D)
    (trace : List (Event D V A R)) (df : DataFrame D)
    (res : Except (TrainErr ε) String)
    (h : train_model envOps agentOps now data = (trace, df, res)) :
    ∀ d', Event.envCtor d' ∈ trace → data.dropColumn "target" = some d' := by
  unfold train_model at h
  cases hdrop : data.dropColumn "target" with
  | none =>
    simp only [hdrop] at h
    injection h with h1 h2
    subst h1
    simp
  | some cleaned =>
    simp only [hdrop] at h
    cases hnew : envOps.new cleaned with
    | error e =>
      simp only [hnew] at h
      injection h with h1 h2
      subst h1
      simp
    | ok env0 =>
      simp only [hnew] at h
      cases hgs : envOps.get_state env0 with
      | error e =>
        simp only [hgs] at h
        injection h with h1 h2
        subst h1
        simp
      | ok sample =>
        simp only [hgs] at h
        cases hag : agentOps.new sample.length 3 with
        | error e =>
          simp only [hag] at h
          injection h with h1 h2
          subst h1
          simp
        | ok g0 =>
          simp only [hag] at h
          rcases hep : episodeLoop envOps agentOps NUM_EPISODES MAX_STEPS
            NUM_EPISODES 0 env0 g0 with ⟨epEvs, epRes⟩
          rw [hep] at h
          have hepev := episodeLoop_events _ _ _ _ _ _ _ _ _ _ hep
          have hnoctor : ∀ d' : DataFrame D, Event.envCtor d' ∉ epEvs := by
            intro d' hmem
            have h1 := hepev _ hmem
            simp [isEpisodeEvent, isStepEvent, isReset] at h1
          cases epRes with
          | error e =>
            injection h with h1 h2
            subst h1
            simp [hnoctor]
          | ok pr =>
            obtain ⟨envF, gF⟩ := pr
            cases hsave : agentOps.save_model gF
                ("src/learning/trained_models/dqn_model_" ++
                  now.strftimeTimestamp ++ ".h5") with
            | error e =>
              simp only [hsave] at h
              injection h with h1 h2
              subst h1
              simp [hnoctor]
            | ok u =>
              cases u
              simp only [hsave] at h
              injection h with h1 h2
              subst h1
              simp [hnoctor]

theorem train_model_countReplays_zero (envOps : EnvOps ε D E V A R)
    (agentOps : AgentOps ε V A R G)
    (hmem : ∀ g, agentOps.memory_len g ≤ BATCH_SIZE)
    (now : DateTime) (data : DataFrame D) (trace : List (Event D V A R))
    (df : DataFrame D) (res : Except (TrainErr ε) String)
    (h : train_model envOps agentOps now data = (trace, df, res)) :
    countReplays trace = 0 := by
  unfold train_model at h
  cases hdrop : data.dropColumn "target" with
  | none =>
    simp only [hdrop] at h
    injection h with h1 h2
    subst h1
    simp [countReplays]
  | some cleaned =>
    simp only [hdrop] at h
    cases hnew : envOps.new cleaned with
    | error e =>
      simp only [hnew] at h
      injection h with h1 h2
      subst h1
      simp [countReplays, isReplay]
    | ok env0 =>
      simp only [hnew] at h
      cases hgs : envOps.get_state env0 with
      | error e =>
        simp only [hgs] at h
        injection h with h1 h2
        subst h1
        simp [countReplays, isReplay]
      | ok sample =>
        simp only [hgs] at h
        cases hag : agentOps.new sample.length 3 with
        | error e =>
          simp only [hag] at h
          injection h with h1 h2
          subst h1
          simp [countReplays, isReplay]
        | ok g0 =>
          simp only [hag] at h
          rcases hep : episodeLoop envOps agentOps NUM_EPISODES MAX_STEPS
            NUM_EPISODES 0 env0 g0 with ⟨epEvs, epRes⟩
          rw [hep] at h
          have hz := episodeLoop_countReplays_zero _ _ hmem _ _ _ _ _ _ _ _ hep
          cases epRes with
          | error e =>
            injection h with h1 h2
            subst h1
            simp only [countReplays, List.countP_append, List.countP_cons,
              List.countP_nil] at hz ⊢
            simp [isReplay, hz]
          | ok pr =>
            obtain ⟨envF, gF⟩ := pr
            cases hsave : agentOps.save_model gF
                ("src/learning/trained_models/dqn_model_" ++
                  now.strftimeTimestamp ++ ".h5") with
            | error e =>
              simp only [hsave] at h
              injection h with h1 h2
              subst h1
              simp only [countReplays, List.countP_append, List.countP_cons,
                List.countP_nil] at hz ⊢
              simp [isReplay, hz]
            | ok u =>
              cases u
              simp only [hsave] at h
              injection h with h1 h2
              subst h1
              simp only [countReplays, List.countP_append, List.countP_cons,
                List.countP_nil] at hz ⊢
              simp [isReplay, hz]

/-! ### Further helpers -/

theorem countResets_flatten_of_ones (segs : List (List (Event D V A R)))
    (h : ∀ seg ∈ segs, countResets seg = 1) :
    countResets segs.flatten = segs.length := by
  induction segs with
  | nil => simp [countResets]
  | cons seg segs ih =>
    simp only [List.flatten_cons, countResets, List.countP_append,
      List.length_cons]
    have h1 : countResets seg = 1 := h seg (List.mem_cons_self seg segs)
    have h2 := ih fun sg hsg => h sg (List.mem_cons_of_mem seg hsg)
    simp only [countResets] at h1 h2
    omega

/-- Everything `train_model` computes, apart from the returned caller
dataframe, depends on the input only through `data.drop(columns=["target"])`.
In particular arbitrary values in the `target` column cannot influence the
run once the column is stripped. -/
theorem train_model_depends_on_drop (envOps : EnvOps ε D E V A R)
    (agentOps : AgentOps ε V A R G) (now : DateTime)
    (data1 data2 : DataFrame D)
    (hd : data1.dropColumn "target" = data2.dropColumn "target") :
    (train_model envOps agentOps now data1).1 =
      (train_model envOps agentOps now data2).1 ∧
    (train_model envOps agentOps now data1).2.2 =
      (train_model envOps agentOps now data2).2.2 := by
  rcases ht1 : train_model envOps agentOps now data1 with ⟨t1, d1, r1⟩
  rcases ht2 : train_model envOps agentOps now data2 with ⟨t2, d2, r2⟩
  dsimp only
  unfold train_model at ht1 ht2
  rw [hd] at ht1
  cases hdrop : data2.dropColumn "target" with
  | none =>
    simp only [hdrop] at ht1 ht2
    injection ht1 with a1 b1
    injection b1 with c1 e1
    injection ht2 with a2 b2
    injection b2 with c2 e2
    subst a1
    subst a2
    rw [← e1, ← e2]
    exact ⟨rfl, rfl⟩
  | some cleaned =>
    simp only [hdrop] at ht1 ht2
    cases hnew : envOps.new cleaned with
    | error e =>
      simp only [hnew] at ht1 ht2
      injection ht1 with a1 b1
      injection b1 with c1 e1
      injection ht2 with a2 b2
      injection b2 with c2 e2
      subst a1
      subst a2
      rw [← e1, ← e2]
      exact ⟨rfl, rfl⟩
    | ok env0 =>
      simp only [hnew] at ht1 ht2
      cases hgs : envOps.get_state env0 with
      | error e =>
        simp only [hgs] at ht1 ht2
        injection ht1 with a1 b1
        injection b1 with c1 e1
        injection ht2 with a2 b2
        injection b2 with c2 e2
        subst a1
        subst a2
        rw [← e1, ← e2]
        exact ⟨rfl, rfl⟩
      | ok sample =>
        simp only [hgs] at ht1 ht2
        cases hag : agentOps.new sample.length 3 with
        | error e =>
          simp only [hag] at ht1 ht2
          injection ht1 with a1 b1
          injection b1 with c1 e1
          injection ht2 with a2 b2
          injection b2 with c2 e2
          subst a1
          subst a2
          rw [← e1, ← e2]
          exact ⟨rfl, rfl⟩
        | ok g0 =>
          simp only [hag] at ht1 ht2
          rcases hep : episodeLoop envOps agentOps NUM_EPISODES MAX_STEPS
            NUM_EPISODES 0 env0 g0 with ⟨epEvs, epRes⟩
          rw [hep] at ht1 ht2
          cases epRes with
          | error e =>
            injection ht1 with a1 b1
            injection b1 with c1 e1
            injection ht2 with a2 b2
            injection b2 with c2 e2
            subst a1
            subst a2
            rw [← e1, ← e2]
            exact ⟨rfl, rfl⟩
          | ok pr =>
            obtain ⟨envF, gF⟩ := pr
            cases hsave : agentOps.save_model gF
                ("src/learning/trained_models/dqn_model_" ++
                  now.strftimeTimestamp ++ ".h5") with
            | error e =>
              simp only [hsave] at ht1 ht2
              injection ht1 with a1 b1
              injection b1 with c1 e1
              injection ht2 with a2 b2
              injection b2 with c2 e2
              subst a1
              subst a2
              rw [← e1, ← e2]
              exact ⟨rfl, rfl⟩
            | ok u =>
              cases u
              simp only [hsave] at ht1 ht2
              injection ht1 with a1 b1
              injection b1 with c1 e1
              injection ht2 with a2 b2
              injection b2 with c2 e2
              subst a1
              subst a2
              rw [← e1, ← e2]
              exact ⟨rfl, rfl⟩

/-! ### The model loader (not present under src) -/

/-- A serialized artifact on disk: either a loadable model of type `M` or a
corrupt / incompatible byte blob. -/
inductive Artifact (M : Type) where
  | valid (m : M)
  | corrupt

/-- Failure modes of the loader. -/
inductive LoadErr where
  | fileNotFound (path : String)
  | deserializationError (path : String)
deriving DecidableEq, Repr

/-- Modelled from the spec: the body of `load_existing_model` is not present
under src — the module docstring declares the function and
`keras.models.load_model` is imported, but its code is missing.  Per spec
§4.2 the loader reads the artifact at the given path from the filesystem
(modelled as a partial map from paths to artifacts) and returns the
deserialized model; a nonexistent path fails with a file-not-found
condition, a corrupt or incompatible artifact with a deserialization error,
and failures propagate unmodified. -/
def load_existing_model {M : Type} (fs : String → Option (Artifact M))
    (model_path : String) : Except LoadErr M :=
  match fs model_path with
  | none => .error (.fileNotFound model_path)
  | some (.valid m) => .ok m
  | some .corrupt => .error (.deserializationError model_path)

def stubFsEmpty : String → Option (Artifact Nat) := fun _ => none

def stubFsCorrupt : String → Option (Artifact Nat) := fun _ =>
  some Artifact.corrupt

/-! ### Claim theorems -/

/-- Claim C10: if the input dataset lacks a `target` column, `train_model`
raises pandas' `KeyError` from the column-drop step before any side effect:
the trace is empty — no print, no environment construction, no agent
construction, no episode, no save — and no path is produced. -/
theorem missing_target_column_fails_before_side_effects
    (envOps : EnvOps ε D E V A R) (agentOps : AgentOps ε V A R G)
    (now : DateTime) (data : DataFrame D)
    (h : data.hasCol "target" = false) :
    train_model envOps agentOps now data =
      ([], data, .error (.keyError "target")) := by
  unfold train_model
  rw [dropColumn_of_not_hasCol data "target" h]

theorem missing_target_column_fails_before_side_effects_witness :
    stubDataNoTarget.hasCol "target" = false ∧
    train_model (stubEnv true) stubAgentLow stubNow stubDataNoTarget =
      ([], stubDataNoTarget, .error (.keyError "target")) :=
  ⟨by decide,
   missing_target_column_fails_before_side_effects (stubEnv true)
     stubAgentLow stubNow stubDataNoTarget (by decide)⟩

/-- Claim C7: `load_existing_model` on a nonexistent path fails with a
file-not-found condition; on a corrupt or incompatible artifact it fails
with a deserialization error; and it returns a model only when the stored
artifact is a valid one — never a partially usable model on failure. -/
theorem load_existing_model_failure_modes :
    (∀ (M : Type) (fs : String → Option (Artifact M)) (p : String),
      fs p = none →
      load_existing_model fs p = .error (.fileNotFound p)) ∧
    (∀ (M : Type) (fs : String → Option (Artifact M)) (p : String),
      fs p = some Artifact.corrupt →
      load_existing_model fs p = .error (.deserializationError p)) ∧
    (∀ (M : Type) (fs : String → Option (Artifact M)) (p : String) (m : M),
      load_existing_model fs p = .ok m → fs p = some (Artifact.valid m)) := by
  refine ⟨?_, ?_, ?_⟩
  · intro M fs p h
    simp [load_existing_model, h]
  · intro M fs p h
    simp [load_existing_model, h]
  · intro M fs p m h
    unfold load_existing_model at h
    cases hfs : fs p with
    | none =>
      rw [hfs] at h
      cases h
    | some a =>
      rw [hfs] at h
      cases a with
      | valid m0 =>
        injection h with h1
        rw [h1]
      | corrupt => cases h

theorem load_existing_model_failure_modes_witness :
    (stubFsEmpty "missing.h5" = none ∧
      load_existing_model stubFsEmpty "missing.h5" =
        .error (.fileNotFound "missing.h5")) ∧
    (stubFsCorrupt "bad.h5" = some Artifact.corrupt ∧
      load_existing_model stubFsCorrupt "bad.h5" =
        .error (.deserializationError "bad.h5")) :=
  ⟨⟨rfl, load_existing_model_failure_modes.1 Nat stubFsEmpty "missing.h5" rfl⟩,
   ⟨rfl, load_existing_model_failure_modes.2.1 Nat stubFsCorrupt "bad.h5" rfl⟩⟩

/-- Claim C5: in every successful run the state size is determined by
querying one state sample from the environment strictly before the agent is
constructed, the action-space size is the fixed constant 3, and the agent
is constructed with exactly `(state_size, 3)`: the trace begins with the
environment construction, the state-sample query, and then
`agentCtor sample.length 3`, before anything else happens. -/
theorem state_size_query_before_agent_ctor (envOps : EnvOps ε D E V A R)
    (agentOps : AgentOps ε V A R G) (now : DateTime) (data : DataFrame D)
    (trace : List (Event D V A R)) (df : DataFrame D) (path : String)
    (h : train_model envOps agentOps now data = (trace, df, Except.ok path)) :
    ∃ cleaned sample env0 g0 rest,
      data.dropColumn "target" = some cleaned ∧
      envOps.get_state env0 = Except.ok sample ∧
      agentOps.new sample.length 3 = Except.ok g0 ∧
      trace = [Event.print "setting up RL learning environment...",
        Event.envCtor cleaned, Event.getState sample,
        Event.print "loading DQN model...",
        Event.agentCtor sample.length 3,
        Event.print "running simulation..."] ++ rest := by
  obtain ⟨-, -, cleaned, sample, env0, g0, envF, gF, epEvs, hdrop, hnew, hgs,
    hag, hep, hsave, htrace⟩ :=
    train_model_ok_spec envOps agentOps now data trace df path h
  refine ⟨cleaned, sample, env0, g0,
    epEvs ++ [Event.save path, Event.print "model trained and saved"],
    hdrop, hgs, hag, ?_⟩
  rw [htrace]
  simp

theorem state_size_query_before_agent_ctor_witness :
    ∃ cleaned sample env0 g0 rest,
      stubData.dropColumn "target" = some cleaned ∧
      (stubEnv true).get_state env0 = Except.ok sample ∧
      stubAgentLow.new sample.length 3 = Except.ok g0 ∧
      (train_model (stubEnv true) stubAgentLow stubNow stubData).1 =
        [Event.print "setting up RL learning environment...",
          Event.envCtor cleaned, Event.getState sample,
          Event.print "loading DQN model...",
          Event.agentCtor sample.length 3,
          Event.print "running simulation..."] ++ rest :=
  state_size_query_before_agent_ctor (stubEnv true) stubAgentLow stubNow
    stubData (train_model (stubEnv true) stubAgentLow stubNow stubData).1
    stubData "src/learning/trained_models/dqn_model_2020-01-02_03-04-05.h5"
    (by rfl)

/-- Claim C3: every successful `train_model` call returns exactly the path
`src/learning/trained_models/dqn_model_<timestamp>.h5`, where the timestamp
is the wall clock formatted `YYYY-MM-DD_HH-MM-SS` (the embedding of
`now.strftime("%Y-%m-%d_%H-%M-%S")`); the returned string ends in `.h5`,
the path is constructed only after all episodes complete (the save event is
the last call of the trace, no earlier save exists), and `save_model` is
invoked with exactly that path — and succeeds — before returning. -/
theorem train_model_save_path (envOps : EnvOps ε D E V A R)
    (agentOps : AgentOps ε V A R G) (now : DateTime) (data : DataFrame D)
    (trace : List (Event D V A R)) (df : DataFrame D) (path : String)
    (h : train_model envOps agentOps now data = (trace, df, Except.ok path)) :
    path = "src/learning/trained_models/dqn_model_" ++
      now.strftimeTimestamp ++ ".h5" ∧
    (∃ stem, path = stem ++ ".h5") ∧
    ∃ front gF,
      trace = front ++ [Event.save path,
        Event.print "model trained and saved"] ∧
      (∀ p, Event.save p ∉ front) ∧
      agentOps.save_model gF path = Except.ok () := by
  obtain ⟨-, hpath, cleaned, sample, env0, g0, envF, gF, epEvs, hdrop, hnew,
    hgs, hag, hep, hsave, htrace⟩ :=
    train_model_ok_spec envOps agentOps now data trace df path h
  have hepev := episodeLoop_events _ _ _ _ _ _ _ _ _ _ hep
  refine ⟨hpath,
    ⟨"src/learning/trained_models/dqn_model_" ++ now.strftimeTimestamp,
      hpath⟩,
    [Event.print "setting up RL learning environment...",
      Event.envCtor cleaned, Event.getState sample,
      Event.print "loading DQN model...",
      Event.agentCtor sample.length 3,
      Event.print "running simulation..."] ++ epEvs, gF, ?_, ?_, hsave⟩
  · rw [htrace]
  · intro p hp
    rcases List.mem_append.mp hp with h6 | hepm
    · simp at h6
    · have hse := hepev _ hepm
      simp [isEpisodeEvent, isStepEvent, isReset] at hse

theorem train_model_save_path_witness :
    "src/learning/trained_models/dqn_model_2020-01-02_03-04-05.h5" =
      "src/learning/trained_models/dqn_model_" ++
        stubNow.strftimeTimestamp ++ ".h5" :=
  (train_model_save_path (stubEnv true) stubAgentLow stubNow stubData
    (train_model (stubEnv true) stubAgentLow stubNow stubData).1 stubData
    "src/learning/trained_models/dqn_model_2020-01-02_03-04-05.h5"
    (by rfl)).1

/-- A concrete loop state for evaluating step-level theorems. -/
def stubSimSt : SimSt Nat Int Nat := ⟨0, 0, [0, 0, 0]⟩

/-- Claim C8: a step on which the environment reports done=true still
performs the step's full bookkeeping before the loop breaks: the terminal
transition is remembered (with done=true, and the remember event is in the
trace), the replay-threshold check is still evaluated on the post-remember
memory length (replay(64) appears iff it exceeds BATCH_SIZE), and the
current state is still advanced to the returned next state. -/
theorem terminal_step_bookkeeping (envOps : EnvOps ε D E V A R)
    (agentOps : AgentOps ε V A R G) (maxSteps stepIdx : Nat)
    (st : SimSt E V G) (evs : List (Event D V A R)) (st' : SimSt E V G)
    (h : stepIter envOps agentOps maxSteps stepIdx st =
      (evs, Except.ok (st', true))) :
    ∃ g1 a e1 ns r g2,
      agentOps.act st.agent st.state = Except.ok (g1, a) ∧
      envOps.step st.env a = Except.ok (e1, (ns, r, true)) ∧
      agentOps.remember g1 st.state a r ns true = Except.ok g2 ∧
      Event.remember st.state a r ns true ∈ evs ∧
      st'.state = ns ∧ st'.env = e1 ∧
      (if BATCH_SIZE < agentOps.memory_len g2
        then Event.replay BATCH_SIZE ∈ evs
        else Event.replay BATCH_SIZE ∉ evs) := by
  obtain ⟨g1, a, e1, ns, r, g2, hact, hstep, hrem, henv, hstate, hdisj⟩ :=
    stepIter_ok_spec envOps agentOps maxSteps stepIdx st evs st' true h
  refine ⟨g1, a, e1, ns, r, g2, hact, hstep, hrem, ?_, hstate, henv, ?_⟩
  · rcases hdisj with ⟨-, g3, -, -, hevs⟩ | ⟨-, -, hevs⟩ <;> subst hevs <;> simp
  · rcases hdisj with ⟨hlt, g3, -, -, hevs⟩ | ⟨hle, -, hevs⟩
    · subst hevs
      rw [if_pos hlt]
      simp
    · subst hevs
      rw [if_neg (Nat.not_lt.mpr hle)]
      simp

theorem terminal_step_bookkeeping_witness :
    ∃ g1 a e1 ns r g2,
      stubAgentLow.act stubSimSt.agent stubSimSt.state = Except.ok (g1, a) ∧
      (stubEnv true).step stubSimSt.env a = Except.ok (e1, (ns, r, true)) ∧
      stubAgentLow.remember g1 stubSimSt.state a r ns true = Except.ok g2 ∧
      Event.remember stubSimSt.state a r ns true ∈
        (stepIter (stubEnv true) stubAgentLow 3 0 stubSimSt).1 ∧
      (⟨1, 1, [7]⟩ : SimSt Nat Int Nat).state = ns ∧
      (⟨1, 1, [7]⟩ : SimSt Nat Int Nat).env = e1 ∧
      (if BATCH_SIZE < stubAgentLow.memory_len g2
        then Event.replay BATCH_SIZE ∈
          (stepIter (stubEnv true) stubAgentLow 3 0 stubSimSt).1
        else Event.replay BATCH_SIZE ∉
          (stepIter (stubEnv true) stubAgentLow 3 0 stubSimSt).1) :=
  terminal_step_bookkeeping (stubEnv true) stubAgentLow 3 0 stubSimSt
    (stepIter (stubEnv true) stubAgentLow 3 0 stubSimSt).1
    ⟨1, 1, [7]⟩ (by rfl)

/-- One-step characterization of failure of the loop body: a step
iteration raises `e` exactly when the first of its collaborator calls that
is actually reached — `model.act`, `env.step`, `model.remember`, or (when
the threshold is met) `model.replay` — raises exactly `e`. -/
theorem stepIter_error_iff (envOps : EnvOps ε D E V A R)
    (agentOps : AgentOps ε V A R G) (maxSteps stepIdx : Nat)
    (st : SimSt E V G) (e : ε) :
    (stepIter envOps agentOps maxSteps stepIdx st).2 = Except.error e ↔
    (agentOps.act st.agent st.state = Except.error e ∨
     ∃ g1 a, agentOps.act st.agent st.state = Except.ok (g1, a) ∧
      (envOps.step st.env a = Except.error e ∨
       ∃ e1 ns r dn, envOps.step st.env a = Except.ok (e1, (ns, r, dn)) ∧
        (agentOps.remember g1 st.state a r ns dn = Except.error e ∨
         ∃ g2, agentOps.remember g1 st.state a r ns dn = Except.ok g2 ∧
           BATCH_SIZE < agentOps.memory_len g2 ∧
           agentOps.replay g2 BATCH_SIZE = Except.error e))) := by
  constructor
  · intro h
    rcases hp : stepIter envOps agentOps maxSteps stepIdx st with ⟨evs, res⟩
    rw [hp] at h
    dsimp only at h
    subst h
    unfold stepIter at hp
    cases hact : agentOps.act st.agent st.state with
    | error e0 =>
      simp only [hact] at hp
      injection hp with h1 h2
      injection h2 with h3
      subst h3
      exact Or.inl rfl
    | ok p =>
      obtain ⟨g1, a⟩ := p
      simp only [hact] at hp
      cases hstep : envOps.step st.env a with
      | error e0 =>
        simp only [hstep] at hp
        injection hp with h1 h2
        injection h2 with h3
        subst h3
        exact Or.inr ⟨g1, a, rfl, Or.inl hstep⟩
      | ok q =>
        obtain ⟨e1, ns, r, dn⟩ := q
        simp only [hstep] at hp
        cases hrem : agentOps.remember g1 st.state a r ns dn with
        | error e0 =>
          simp only [hrem] at hp
          injection hp with h1 h2
          injection h2 with h3
          subst h3
          exact Or.inr ⟨g1, a, rfl, Or.inr ⟨e1, ns, r, dn, hstep,
            Or.inl hrem⟩⟩
        | ok g2 =>
          simp only [hrem] at hp
          by_cases hlt : BATCH_SIZE < agentOps.memory_len g2
          · rw [if_pos hlt] at hp
            cases hrep : agentOps.replay g2 BATCH_SIZE with
            | error e0 =>
              simp only [hrep] at hp
              injection hp with h1 h2
              injection h2 with h3
              subst h3
              exact Or.inr ⟨g1, a, rfl, Or.inr ⟨e1, ns, r, dn, hstep,
                Or.inr ⟨g2, hrem, hlt, hrep⟩⟩⟩
            | ok g3 =>
              simp only [hrep] at hp
              injection hp with h1 h2
              cases h2
          · rw [if_neg hlt] at hp
            injection hp with h1 h2
            cases h2
  · intro h
    rcases h with hact | ⟨g1, a, hact, h⟩
    · unfold stepIter
      simp [hact]
    · rcases h with hstep | ⟨e1, ns, r, dn, hstep, h⟩
      · unfold stepIter
        simp [hact, hstep]
      · rcases h with hrem | ⟨g2, hrem, hlt, hrep⟩
        · unfold stepIter
          simp [hact, hstep, hrem]
        · unfold stepIter
          simp [hact, hstep, hrem, hlt, hrep]

/-- One-step characterization of failure of the inner loop: with at least
one iteration remaining it raises `e` exactly when the current iteration
raises `e`, or the current iteration completes without the done flag and
the remaining loop raises `e`.  (With no iteration remaining the loop
returns `Except.ok` by definition and cannot fail.) -/
theorem stepLoop_error_iff (envOps : EnvOps ε D E V A R)
    (agentOps : AgentOps ε V A R G) (maxSteps fuel stepIdx : Nat)
    (st : SimSt E V G) (e : ε) :
    (stepLoop envOps agentOps maxSteps (fuel + 1) stepIdx st).2 =
        Except.error e ↔
    ((stepIter envOps agentOps maxSteps stepIdx st).2 = Except.error e ∨
     ∃ evs st', stepIter envOps agentOps maxSteps stepIdx st =
        (evs, Except.ok (st', false)) ∧
      (stepLoop envOps agentOps maxSteps fuel (stepIdx + 1) st').2 =
        Except.error e) := by
  constructor
  · intro h
    rcases hp : stepLoop envOps agentOps maxSteps (fuel + 1) stepIdx st
      with ⟨evs, res⟩
    rw [hp] at h
    dsimp only at h
    subst h
    unfold stepLoop at hp
    rcases hsi : stepIter envOps agentOps maxSteps stepIdx st
      with ⟨evs0, res0⟩
    rw [hsi] at hp
    cases res0 with
    | error e0 =>
      injection hp with h1 h2
      injection h2 with h3
      subst h3
      exact Or.inl rfl
    | ok p =>
      obtain ⟨st1, dn⟩ := p
      cases dn with
      | true =>
        injection hp with h1 h2
        cases h2
      | false =>
        injection hp with h1 h2
        exact Or.inr ⟨evs0, st1, rfl, h2⟩
  · intro h
    rcases h with h | ⟨evs, st', hsi, hrest⟩
    · rcases hq : stepIter envOps agentOps maxSteps stepIdx st
        with ⟨evs0, res0⟩
      rw [hq] at h
      dsimp only at h
      subst h
      unfold stepLoop
      rw [hq]
    · unfold stepLoop
      rw [hsi]
      exact hrest

/-- One-step characterization of failure of the episode loop: with at
least one episode remaining it raises `e` exactly when `env.reset` raises
`e`, or the reset succeeds and either this episode's step loop raises `e`
or the remaining episodes do. -/
theorem episodeLoop_error_iff (envOps : EnvOps ε D E V A R)
    (agentOps : AgentOps ε V A R G) (numEpisodes maxSteps fuel epIdx : Nat)
    (en : E) (g : G) (e : ε) :
    (episodeLoop envOps agentOps numEpisodes maxSteps (fuel + 1) epIdx
        en g).2 = Except.error e ↔
    (envOps.reset en = Except.error e ∨
     ∃ e1 s0, envOps.reset en = Except.ok (e1, s0) ∧
      ((stepLoop envOps agentOps maxSteps maxSteps 0 ⟨e1, g, s0⟩).2 =
          Except.error e ∨
       ∃ evs st', stepLoop envOps agentOps maxSteps maxSteps 0 ⟨e1, g, s0⟩ =
          (evs, Except.ok st') ∧
        (episodeLoop envOps agentOps numEpisodes maxSteps fuel (epIdx + 1)
            st'.env st'.agent).2 = Except.error e)) := by
  constructor
  · intro h
    rcases hp : episodeLoop envOps agentOps numEpisodes maxSteps (fuel + 1)
      epIdx en g with ⟨evs, res⟩
    rw [hp] at h
    dsimp only at h
    subst h
    unfold episodeLoop at hp
    cases hreset : envOps.reset en with
    | error e0 =>
      simp only [hreset] at hp
      injection hp with h1 h2
      injection h2 with h3
      subst h3
      exact Or.inl rfl
    | ok p =>
      obtain ⟨e1, s0⟩ := p
      simp only [hreset] at hp
      rcases hsl : stepLoop envOps agentOps maxSteps maxSteps 0 ⟨e1, g, s0⟩
        with ⟨evs1, res1⟩
      rw [hsl] at hp
      cases res1 with
      | error e0 =>
        injection hp with h1 h2
        injection h2 with h3
        subst h3
        exact Or.inr ⟨e1, s0, rfl, Or.inl (by rw [hsl])⟩
      | ok st2 =>
        injection hp with h1 h2
        exact Or.inr ⟨e1, s0, rfl, Or.inr ⟨evs1, st2, hsl, h2⟩⟩
  · intro h
    rcases h with h | ⟨e1, s0, hreset, h⟩
    · unfold episodeLoop
      simp [h]
    · rcases h with h | ⟨evs, st', hsl, hrest⟩
      · rcases hq : stepLoop envOps agentOps maxSteps maxSteps 0 ⟨e1, g, s0⟩
          with ⟨evs1, res1⟩
        rw [hq] at h
        dsimp only at h
        subst h
        unfold episodeLoop
        simp only [hreset]
        rw [hq]
      · unfold episodeLoop
        simp only [hreset]
        rw [hsl]
        exact hrest

/-- Characterization of the collaborator-exception outcomes of
`train_model`: the run raises the collaborator exception `e` exactly when
the first collaborator call the run actually reaches — the environment
constructor on the cleaned frame, the state query, the agent constructor,
the episode loop (i.e. one of reset/act/step/remember/replay, by
`episodeLoop_error_iff` and `stepLoop_error_iff`), or the final
`save_model` — raises exactly `e`. -/
theorem train_model_collab_error_iff (envOps : EnvOps ε D E V A R)
    (agentOps : AgentOps ε V A R G) (now : DateTime) (data : DataFrame D)
    (e : ε) :
    (train_model envOps agentOps now data).2.2 =
        Except.error (TrainErr.collab e) ↔
    (∃ cleaned, data.dropColumn "target" = some cleaned ∧
      (envOps.new cleaned = Except.error e ∨
       ∃ env0, envOps.new cleaned = Except.ok env0 ∧
        (envOps.get_state env0 = Except.error e ∨
         ∃ sample, envOps.get_state env0 = Except.ok sample ∧
          (agentOps.new sample.length 3 = Except.error e ∨
           ∃ g0, agentOps.new sample.length 3 = Except.ok g0 ∧
            ((episodeLoop envOps agentOps NUM_EPISODES MAX_STEPS
                NUM_EPISODES 0 env0 g0).2 = Except.error e ∨
             ∃ epEvs envF gF,
              episodeLoop envOps agentOps NUM_EPISODES MAX_STEPS
                NUM_EPISODES 0 env0 g0 = (epEvs, Except.ok (envF, gF)) ∧
              agentOps.save_model gF
                ("src/learning/trained_models/dqn_model_" ++
                  now.strftimeTimestamp ++ ".h5") = Except.error e))))) := by
  constructor
  · intro h
    rcases ht : train_model envOps agentOps now data with ⟨trace, df, res⟩
    rw [ht] at h
    dsimp only at h
    subst h
    unfold train_model at ht
    cases hdrop : data.dropColumn "target" with
    | none =>
      simp only [hdrop] at ht
      injection ht with h1 h2
      injection h2 with h3 h4
      injection h4 with h5
      cases h5
    | some cleaned =>
      simp only [hdrop] at ht
      cases hnew : envOps.new cleaned with
      | error e0 =>
        simp only [hnew] at ht
        injection ht with h1 h2
        injection h2 with h3 h4
        injection h4 with h5
        injection h5 with h6
        subst h6
        exact ⟨cleaned, rfl, Or.inl hnew⟩
      | ok env0 =>
        simp only [hnew] at ht
        cases hgs : envOps.get_state env0 with
        | error e0 =>
          simp only [hgs] at ht
          injection ht with h1 h2
          injection h2 with h3 h4
          injection h4 with h5
          injection h5 with h6
          subst h6
          exact ⟨cleaned, rfl, Or.inr ⟨env0, hnew, Or.inl hgs⟩⟩
        | ok sample =>
          simp only [hgs] at ht
          cases hag : agentOps.new sample.length 3 with
          | error e0 =>
            simp only [hag] at ht
            injection ht with h1 h2
            injection h2 with h3 h4
            injection h4 with h5
            injection h5 with h6
            subst h6
            exact ⟨cleaned, rfl, Or.inr ⟨env0, hnew, Or.inr
              ⟨sample, hgs, Or.inl hag⟩⟩⟩
          | ok g0 =>
            simp only [hag] at ht
            rcases hep : episodeLoop envOps agentOps NUM_EPISODES MAX_STEPS
              NUM_EPISODES 0 env0 g0 with ⟨epEvs, epRes⟩
            rw [hep] at ht
            cases epRes with
            | error e0 =>
              injection ht with h1 h2
              injection h2 with h3 h4
              injection h4 with h5
              injection h5 with h6
              subst h6
              exact ⟨cleaned, rfl, Or.inr ⟨env0, hnew, Or.inr
                ⟨sample, hgs, Or.inr ⟨g0, hag,
                  Or.inl (by rw [hep])⟩⟩⟩⟩
            | ok pr =>
              obtain ⟨envF, gF⟩ := pr
              cases hsave : agentOps.save_model gF
                  ("src/learning/trained_models/dqn_model_" ++
                    now.strftimeTimestamp ++ ".h5") with
              | error e0 =>
                simp only [hsave] at ht
                injection ht with h1 h2
                injection h2 with h3 h4
                injection h4 with h5
                injection h5 with h6
                subst h6
                exact ⟨cleaned, rfl, Or.inr ⟨env0, hnew, Or.inr
                  ⟨sample, hgs, Or.inr ⟨g0, hag, Or.inr
                    ⟨epEvs, envF, gF, hep, hsave⟩⟩⟩⟩⟩
              | ok u =>
                cases u
                simp only [hsave] at ht
                injection ht with h1 h2
                injection h2 with h3 h4
                cases h4
  · intro h
    obtain ⟨cleaned, hdrop, h⟩ := h
    rcases h with hnew | ⟨env0, hnew, h⟩
    · unfold train_model
      simp [hdrop, hnew]
    · rcases h with hgs | ⟨sample, hgs, h⟩
      · unfold train_model
        simp [hdrop, hnew, hgs]
      · rcases h with hag | ⟨g0, hag, h⟩
        · unfold train_model
          simp [hdrop, hnew, hgs, hag]
        · rcases h with hp | ⟨epEvs, envF, gF, hep, hsave⟩
          · rcases hep : episodeLoop envOps agentOps NUM_EPISODES MAX_STEPS
              NUM_EPISODES 0 env0 g0 with ⟨epEvs, epRes⟩
            rw [hep] at hp
            dsimp only at hp
            subst hp
            unfold train_model
            simp only [hdrop]
            simp only [hnew, hgs, hag]
            rw [hep]
          · unfold train_model
            simp only [hdrop]
            simp only [hnew, hgs, hag]
            rw [hep]
            simp [hsave]

/-- Characterization of the KeyError outcome of `train_model`: the run
raises a `KeyError` exactly for the column `"target"` when the input frame
has no such column; no collaborator failure is ever converted into it. -/
theorem train_model_keyError_iff (envOps : EnvOps ε D E V A R)
    (agentOps : AgentOps ε V A R G) (now : DateTime) (data : DataFrame D)
    (c : String) :
    (train_model envOps agentOps now data).2.2 =
        Except.error (TrainErr.keyError c) ↔
    (c = "target" ∧ data.dropColumn "target" = none) := by
  constructor
  · intro h
    rcases ht : train_model envOps agentOps now data with ⟨trace, df, res⟩
    rw [ht] at h
    dsimp only at h
    subst h
    unfold train_model at ht
    cases hdrop : data.dropColumn "target" with
    | none =>
      simp only [hdrop] at ht
      injection ht with h1 h2
      injection h2 with h3 h4
      injection h4 with h5
      injection h5 with h6
      exact ⟨h6.symm, rfl⟩
    | some cleaned =>
      simp only [hdrop] at ht
      cases hnew : envOps.new cleaned with
      | error e0 =>
        simp only [hnew] at ht
        injection ht with h1 h2
        injection h2 with h3 h4
        injection h4 with h5
        cases h5
      | ok env0 =>
        simp only [hnew] at ht
        cases hgs : envOps.get_state env0 with
        | error e0 =>
          simp only [hgs] at ht
          injection ht with h1 h2
          injection h2 with h3 h4
          injection h4 with h5
          cases h5
        | ok sample =>
          simp only [hgs] at ht
          cases hag : agentOps.new sample.length 3 with
          | error e0 =>
            simp only [hag] at ht
            injection ht with h1 h2
            injection h2 with h3 h4
            injection h4 with h5
            cases h5
          | ok g0 =>
            simp only [hag] at ht
            rcases hep : episodeLoop envOps agentOps NUM_EPISODES MAX_STEPS
              NUM_EPISODES 0 env0 g0 with ⟨epEvs, epRes⟩
            rw [hep] at ht
            cases epRes with
            | error e0 =>
              injection ht with h1 h2
              injection h2 with h3 h4
              injection h4 with h5
              cases h5
            | ok pr =>
              obtain ⟨envF, gF⟩ := pr
              cases hsave : agentOps.save_model gF
                  ("src/learning/trained_models/dqn_model_" ++
                    now.strftimeTimestamp ++ ".h5") with
              | error e0 =>
                simp only [hsave] at ht
                injection ht with h1 h2
                injection h2 with h3 h4
                injection h4 with h5
                cases h5
              | ok u =>
                cases u
                simp only [hsave] at ht
                injection ht with h1 h2
                injection h2 with h3 h4
                cases h4
  · intro h
    obtain ⟨rfl, hdrop⟩ := h
    unfold train_model
    simp [hdrop]

/-- Claim C6: exceptions propagate to the caller unmodified: `train_model`
contains no retry, no catch-and-rewrap, and no local recovery on any path.
At every level the run fails with exception `e` exactly when the one
collaborator call actually reached at that point of the run — constructor,
state query, reset, act, step, remember, replay, or save — raises exactly
`e`: (1) the step iteration, (2) the step loop, (3) the episode loop, and
(4) `train_model` as a whole are each characterized by an if-and-only-if;
and (5) the only non-collaborator error is the `KeyError` for a missing
`target` column, so no collaborator failure is ever converted, swallowed,
or retried. -/
theorem exceptions_propagate_unmodified :
    (∀ (ε D E V A R G : Type) (envOps : EnvOps ε D E V A R)
        (agentOps : AgentOps ε V A R G) (maxSteps stepIdx : Nat)
        (st : SimSt E V G) (e : ε),
      (stepIter envOps agentOps maxSteps stepIdx st).2 = Except.error e ↔
      (agentOps.act st.agent st.state = Except.error e ∨
       ∃ g1 a, agentOps.act st.agent st.state = Except.ok (g1, a) ∧
        (envOps.step st.env a = Except.error e ∨
         ∃ e1 ns r dn, envOps.step st.env a = Except.ok (e1, (ns, r, dn)) ∧
          (agentOps.remember g1 st.state a r ns dn = Except.error e ∨
           ∃ g2, agentOps.remember g1 st.state a r ns dn = Except.ok g2 ∧
             BATCH_SIZE < agentOps.memory_len g2 ∧
             agentOps.replay g2 BATCH_SIZE = Except.error e)))) ∧
    (∀ (ε D E V A R G : Type) (envOps : EnvOps ε D E V A R)
        (agentOps : AgentOps ε V A R G) (maxSteps fuel stepIdx : Nat)
        (st : SimSt E V G) (e : ε),
      (stepLoop envOps agentOps maxSteps (fuel + 1) stepIdx st).2 =
          Except.error e ↔
      ((stepIter envOps agentOps maxSteps stepIdx st).2 = Except.error e ∨
       ∃ evs st', stepIter envOps agentOps maxSteps stepIdx st =
          (evs, Except.ok (st', false)) ∧
        (stepLoop envOps agentOps maxSteps fuel (stepIdx + 1) st').2 =
          Except.error e)) ∧
    (∀ (ε D E V A R G : Type) (envOps : EnvOps ε D E V A R)
        (agentOps : AgentOps ε V A R G)
        (numEpisodes maxSteps fuel epIdx : Nat) (en : E) (g : G) (e : ε),
      (episodeLoop envOps agentOps numEpisodes maxSteps (fuel + 1) epIdx
          en g).2 = Except.error e ↔
      (envOps.reset en = Except.error e ∨
       ∃ e1 s0, envOps.reset en = Except.ok (e1, s0) ∧
        ((stepLoop envOps agentOps maxSteps maxSteps 0 ⟨e1, g, s0⟩).2 =
            Except.error e ∨
         ∃ evs st',
          stepLoop envOps agentOps maxSteps maxSteps 0 ⟨e1, g, s0⟩ =
            (evs, Except.ok st') ∧
          (episodeLoop envOps agentOps numEpisodes maxSteps fuel (epIdx + 1)
              st'.env st'.agent).2 = Except.error e))) ∧
    (∀ (ε D E V A R G : Type) (envOps : EnvOps ε D E V A R)
        (agentOps : AgentOps ε V A R G) (now : DateTime)
        (data : DataFrame D) (e : ε),
      (train_model envOps agentOps now data).2.2 =
          Except.error (TrainErr.collab e) ↔
      (∃ cleaned, data.dropColumn "target" = some cleaned ∧
        (envOps.new cleaned = Except.error e ∨
         ∃ env0, envOps.new cleaned = Except.ok env0 ∧
          (envOps.get_state env0 = Except.error e ∨
           ∃ sample, envOps.get_state env0 = Except.ok sample ∧
            (agentOps.new sample.length 3 = Except.error e ∨
             ∃ g0, agentOps.new sample.length 3 = Except.ok g0 ∧
              ((episodeLoop envOps agentOps NUM_EPISODES MAX_STEPS
                  NUM_EPISODES 0 env0 g0).2 = Except.error e ∨
               ∃ epEvs envF gF,
                episodeLoop envOps agentOps NUM_EPISODES MAX_STEPS
                  NUM_EPISODES 0 env0 g0 = (epEvs, Except.ok (envF, gF)) ∧
                agentOps.save_model gF
                  ("src/learning/trained_models/dqn_model_" ++
                    now.strftimeTimestamp ++ ".h5") =
                  Except.error e)))))) ∧
    (∀ (ε D E V A R G : Type) (envOps : EnvOps ε D E V A R)
        (agentOps : AgentOps ε V A R G) (now : DateTime)
        (data : DataFrame D) (c : String),
      (train_model envOps agentOps now data).2.2 =
          Except.error (TrainErr.keyError c) ↔
      (c = "target" ∧ data.dropColumn "target" = none)) :=
  ⟨fun _ _ _ _ _ _ _ envOps agentOps maxSteps stepIdx st e =>
     stepIter_error_iff envOps agentOps maxSteps stepIdx st e,
   fun _ _ _ _ _ _ _ envOps agentOps maxSteps fuel stepIdx st e =>
     stepLoop_error_iff envOps agentOps maxSteps fuel stepIdx st e,
   fun _ _ _ _ _ _ _ envOps agentOps numEpisodes maxSteps fuel epIdx en g
       e =>
     episodeLoop_error_iff envOps agentOps numEpisodes maxSteps fuel epIdx
       en g e,
   fun _ _ _ _ _ _ _ envOps agentOps now data e =>
     train_model_collab_error_iff envOps agentOps now data e,
   fun _ _ _ _ _ _ _ envOps agentOps now data c =>
     train_model_keyError_iff envOps agentOps now data c⟩

/-- An environment stub whose `step` raises, to exercise mid-loop
propagation. -/
def stubEnvStepRaise : EnvOps String Int Nat Int Nat Int where
  new := fun _ => .ok 0
  get_state := fun _ => .ok [1, 2, 3]
  reset := fun e => .ok (e, [0, 0, 0])
  step := fun _ _ => .error "stepboom"

theorem exceptions_propagate_unmodified_witness :
    ((train_model stubEnvRaise stubAgentLow stubNow stubData).2.2 =
      Except.error (TrainErr.collab "boom")) ∧
    ((train_model stubEnvStepRaise stubAgentLow stubNow stubData).2.2 =
      Except.error (TrainErr.collab "stepboom")) :=
  ⟨(exceptions_propagate_unmodified.2.2.2.1 String Int Nat Int Nat Int Nat
      stubEnvRaise stubAgentLow stubNow stubData "boom").mpr
     ⟨⟨[("price", [1, 2])]⟩, rfl, Or.inl rfl⟩,
   (exceptions_propagate_unmodified.2.2.2.1 String Int Nat Int Nat Int Nat
      stubEnvStepRaise stubAgentLow stubNow stubData "stepboom").mpr
     ⟨⟨[("price", [1, 2])]⟩, rfl, Or.inr ⟨0, rfl, Or.inr ⟨[1, 2, 3], rfl,
       Or.inr ⟨0, rfl, Or.inl (by rfl)⟩⟩⟩⟩⟩

/-- Claim C4: the `target` column is stripped before the environment is
constructed, so the label column never reaches the environment: (a) every
environment construction of a run receives exactly the cleaned frame
`data.drop(columns=["target"])`, which has no `target` column; (b) the
values stored in the `target` column are irrelevant — replacing them by
arbitrary sentinel values changes neither the trace nor the result of the
run, so such values cannot cause an error attributable to the column once
stripped. -/
theorem target_column_stripped_before_env :
    (∀ (ε D E V A R G : Type) (envOps : EnvOps ε D E V A R)
        (agentOps : AgentOps ε V A R G) (now : DateTime) (data : DataFrame D)
        (trace : List (Event D V A R)) (df : DataFrame D)
        (res : Except (TrainErr ε) String),
      train_model envOps agentOps now data = (trace, df, res) →
      ∀ d', Event.envCtor d' ∈ trace →
        data.dropColumn "target" = some d' ∧ d'.hasCol "target" = false) ∧
    (∀ (ε D E V A R G : Type) (envOps : EnvOps ε D E V A R)
        (agentOps : AgentOps ε V A R G) (now : DateTime) (data : DataFrame D)
        (vals : List D),
      (train_model envOps agentOps now (data.setCol "target" vals)).1 =
        (train_model envOps agentOps now data).1 ∧
      (train_model envOps agentOps now (data.setCol "target" vals)).2.2 =
        (train_model envOps agentOps now data).2.2) := by
  constructor
  · intro ε D E V A R G envOps agentOps now data trace df res h d' hd'
    have h1 := train_model_envCtor_only_cleaned envOps agentOps now data
      trace df res h d' hd'
    exact ⟨h1, dropColumn_hasCol data d' "target" h1⟩
  · intro ε D E V A R G envOps agentOps now data vals
    exact train_model_depends_on_drop envOps agentOps now _ data
      (dropColumn_setCol data "target" vals)

theorem target_column_stripped_before_env_witness :
    (∀ d', Event.envCtor d' ∈
        (train_model (stubEnv true) stubAgentLow stubNow stubData).1 →
      stubData.dropColumn "target" = some d' ∧
      d'.hasCol "target" = false) ∧
    (train_model (stubEnv true) stubAgentLow stubNow
        (stubData.setCol "target" [9, 9])).1 =
      (train_model (stubEnv true) stubAgentLow stubNow stubData).1 :=
  ⟨target_column_stripped_before_env.1 String Int Nat Int Nat Int Nat
     (stubEnv true) stubAgentLow stubNow stubData
     (train_model (stubEnv true) stubAgentLow stubNow stubData).1 stubData
     (Except.ok
       "src/learning/trained_models/dqn_model_2020-01-02_03-04-05.h5")
     (by rfl),
   (target_column_stripped_before_env.2 String Int Nat Int Nat Int Nat
     (stubEnv true) stubAgentLow stubNow stubData [9, 9]).1⟩

/-- Claim C2: in every step of every episode, replay is invoked with batch
size 64 if and only if the agent's memory length, measured immediately
after that step's remember call, strictly exceeds BATCH_SIZE (64): the
iteration trace contains `replay BATCH_SIZE` iff the post-remember memory
length exceeds the threshold, no other batch size is ever passed; and for
an agent whose memory length never exceeds the threshold, no replay event
occurs anywhere in the whole run. -/
theorem replay_threshold_behavior :
    (∀ (ε D E V A R G : Type) (envOps : EnvOps ε D E V A R)
        (agentOps : AgentOps ε V A R G) (maxSteps stepIdx : Nat)
        (st : SimSt E V G) (evs : List (Event D V A R)) (st' : SimSt E V G)
        (d : Bool),
      stepIter envOps agentOps maxSteps stepIdx st =
        (evs, Except.ok (st', d)) →
      ∃ g1 a e1 ns r g2,
        agentOps.act st.agent st.state = Except.ok (g1, a) ∧
        envOps.step st.env a = Except.ok (e1, (ns, r, d)) ∧
        agentOps.remember g1 st.state a r ns d = Except.ok g2 ∧
        (Event.replay BATCH_SIZE ∈ evs ↔
          BATCH_SIZE < agentOps.memory_len g2) ∧
        (∀ b, Event.replay b ∈ evs → b = BATCH_SIZE)) ∧
    (∀ (ε D E V A R G : Type) (envOps : EnvOps ε D E V A R)
        (agentOps : AgentOps ε V A R G) (now : DateTime) (data : DataFrame D)
        (trace : List (Event D V A R)) (df : DataFrame D)
        (res : Except (TrainErr ε) String),
      (∀ g, agentOps.memory_len g ≤ BATCH_SIZE) →
      train_model envOps agentOps now data = (trace, df, res) →
      countReplays trace = 0) := by
  constructor
  · intro ε D E V A R G envOps agentOps maxSteps stepIdx st evs st' d h
    obtain ⟨g1, a, e1, ns, r, g2, hact, hstep, hrem, -, -, hdisj⟩ :=
      stepIter_ok_spec envOps agentOps maxSteps stepIdx st evs st' d h
    refine ⟨g1, a, e1, ns, r, g2, hact, hstep, hrem, ?_, ?_⟩
    · rcases hdisj with ⟨hlt, g3, -, -, hevs⟩ | ⟨hle, -, hevs⟩
      · subst hevs
        simp [hlt]
      · subst hevs
        constructor
        · intro hmem
          simp at hmem
        · intro hlt'
          exact absurd hlt' (Nat.not_lt.mpr hle)
    · intro b hb
      rcases hdisj with ⟨-, g3, -, -, hevs⟩ | ⟨-, -, hevs⟩
      · subst hevs
        simp at hb
        exact hb
      · subst hevs
        simp at hb
  · intro ε D E V A R G envOps agentOps now data trace df res hmem h
    exact train_model_countReplays_zero envOps agentOps hmem now data
      trace df res h

theorem replay_threshold_behavior_witness :
    (∃ g1 a e1 ns r g2,
      stubAgentHigh.act stubSimSt.agent stubSimSt.state = Except.ok (g1, a) ∧
      (stubEnv true).step stubSimSt.env a = Except.ok (e1, (ns, r, true)) ∧
      stubAgentHigh.remember g1 stubSimSt.state a r ns true =
        Except.ok g2 ∧
      (Event.replay BATCH_SIZE ∈
          (stepIter (stubEnv true) stubAgentHigh 3 0 stubSimSt).1 ↔
        BATCH_SIZE < stubAgentHigh.memory_len g2) ∧
      (∀ b, Event.replay b ∈
          (stepIter (stubEnv true) stubAgentHigh 3 0 stubSimSt).1 →
        b = BATCH_SIZE)) ∧
    countReplays
      (train_model (stubEnv true) stubAgentLow stubNow stubData).1 = 0 :=
  ⟨replay_threshold_behavior.1 String Int Nat Int Nat Int Nat (stubEnv true)
     stubAgentHigh 3 0 stubSimSt
     (stepIter (stubEnv true) stubAgentHigh 3 0 stubSimSt).1
     ⟨1, 1, [7]⟩ true (by rfl),
   replay_threshold_behavior.2 String Int Nat Int Nat Int Nat (stubEnv true)
     stubAgentLow stubNow stubData
     (train_model (stubEnv true) stubAgentLow stubNow stubData).1 stubData
     (Except.ok
       "src/learning/trained_models/dqn_model_2020-01-02_03-04-05.h5")
     (fun _ => Nat.zero_le _) (by rfl)⟩

/-- Claim C1: every successful run of `train_model` resets the environment
exactly `NUM_EPISODES` (10) times; the trace decomposes into a prefix with
no resets and no step iterations, `NUM_EPISODES` episode segments — each an
episode print, one reset, and an `IterChain` of at most `MAX_STEPS` (10)
iteration blocks, each block in the source's order (act on the current
state, env.step with that action, unconditional remember of exactly that
transition, conditional replay, state advanced to the next state, loop
ended early when the done flag is set) — and a save suffix.  Moreover with
an episode count of 2, max-steps 3, and an environment reporting done=True
on every first step, exactly 2 episodes of exactly 1 step each are
performed. -/
theorem train_model_episode_loop_structure :
    (∀ (ε D E V A R G : Type) (envOps : EnvOps ε D E V A R)
        (agentOps : AgentOps ε V A R G) (now : DateTime) (data : DataFrame D)
        (trace : List (Event D V A R)) (df : DataFrame D) (path : String),
      train_model envOps agentOps now data = (trace, df, Except.ok path) →
      ∃ (pre : List (Event D V A R)) (segs : List (List (Event D V A R)))
        (post : List (Event D V A R)),
        trace = pre ++ segs.flatten ++ post ∧
        segs.length = NUM_EPISODES ∧
        countResets pre = 0 ∧ countActs pre = 0 ∧
        countResets post = 0 ∧ countActs post = 0 ∧
        (∀ seg ∈ segs, ∃ msg s0 body,
          seg = Event.print msg :: Event.reset s0 :: body ∧
          IterChain s0 body ∧ countActs body ≤ MAX_STEPS ∧
          countResets body = 0) ∧
        countResets trace = NUM_EPISODES) ∧
    episodeLoop (stubEnv true) stubAgentLow 2 3 2 0 0 0 =
      ([Event.print "Starting episode 1 of 2", Event.reset [0, 0, 0],
        Event.print "\tStep 1 of 3", Event.act [0, 0, 0] 0,
        Event.envStep 0 [7] 1 true, Event.remember [0, 0, 0] 0 1 [7] true,
        Event.print "Starting episode 2 of 2", Event.reset [0, 0, 0],
        Event.print "\tStep 1 of 3", Event.act [0, 0, 0] 0,
        Event.envStep 0 [7] 1 true, Event.remember [0, 0, 0] 0 1 [7] true],
       Except.ok (2, 2)) := by
  constructor
  · intro ε D E V A R G envOps agentOps now data trace df path h
    obtain ⟨-, -, cleaned, sample, env0, g0, envF, gF, epEvs, hdrop, hnew,
      hgs, hag, hep, hsave, htrace⟩ :=
      train_model_ok_spec envOps agentOps now data trace df path h
    obtain ⟨segs, hjoin, hlen, hsegs⟩ :=
      episodeLoop_ok_shape envOps agentOps NUM_EPISODES MAX_STEPS
        NUM_EPISODES 0 env0 g0 epEvs envF gF hep
    have hone : ∀ seg ∈ segs, countResets seg = 1 := by
      intro seg hseg
      obtain ⟨msg, s0, body, rfl, -, -, hbz⟩ := hsegs seg hseg
      simp only [countResets] at hbz ⊢
      simp [List.countP_cons, isReset, hbz]
    refine ⟨[Event.print "setting up RL learning environment...",
        Event.envCtor cleaned, Event.getState sample,
        Event.print "loading DQN model...",
        Event.agentCtor sample.length 3,
        Event.print "running simulation..."], segs,
      [Event.save path, Event.print "model trained and saved"],
      ?_, hlen, ?_, ?_, ?_, ?_, hsegs, ?_⟩
    · rw [htrace, hjoin]
    · simp [countResets, isReset]
    · simp [countActs, isAct]
    · simp [countResets, isReset]
    · simp [countActs, isAct]
    · rw [htrace, hjoin]
      have hflat := countResets_flatten_of_ones segs hone
      simp only [countResets] at hflat ⊢
      simp [List.countP_append, hflat, hlen, isReset, NUM_EPISODES]
  · rfl

theorem train_model_episode_loop_structure_witness :
    ∃ (pre : List (Event Int Int Nat Int))
      (segs : List (List (Event Int Int Nat Int)))
      (post : List (Event Int Int Nat Int)),
      (train_model (stubEnv true) stubAgentLow stubNow stubData).1 =
        pre ++ segs.flatten ++ post ∧
      segs.length = NUM_EPISODES ∧
      countResets pre = 0 ∧ countActs pre = 0 ∧
      countResets post = 0 ∧ countActs post = 0 ∧
      (∀ seg ∈ segs, ∃ msg s0 body,
        seg = Event.print msg :: Event.reset s0 :: body ∧
        IterChain s0 body ∧ countActs body ≤ MAX_STEPS ∧
        countResets body = 0) ∧
      countResets
        (train_model (stubEnv true) stubAgentLow stubNow stubData).1 =
        NUM_EPISODES :=
  train_model_episode_loop_structure.1 String Int Nat Int Nat Int Nat
    (stubEnv true) stubAgentLow stubNow stubData
    (train_model (stubEnv true) stubAgentLow stubNow stubData).1 stubData
    "src/learning/trained_models/dqn_model_2020-01-02_03-04-05.h5" (by rfl)

end RLTrader
